import Mathlib

/-!
Verification development for the stitchcheck knitting-pattern analysis
pipeline.  The Python sources under backend/ are shallowly embedded:
Python ints become Int, lists become List, dicts become association
lists with Python insertion-order upsert semantics, and each Python
function becomes a Lean function of the same name.  Regular expressions
are hand-compiled into a small backtracking matcher library whose
alternative ordering mirrors the regex engine (leftmost match, ordered
alternation, greedy quantifiers preferring longest).
-/

namespace StitchCheck

/-! ## Python dict embedding: association list with insertion-order upsert -/

/-- Embedding of a Python dict from str to int: an association list where
dictSet updates the value at the first occurrence of the key (keeping its
position) or appends a new binding, exactly like Python dict assignment. -/
abbrev Dict : Type := List (String × Int)

def dictEmpty : Dict := []

/-- Python d[k] lookup as an Option (first binding wins; with upsert-built
dicts keys are unique). -/
def dictGet? (d : Dict) (k : String) : Option Int :=
  match d with
  | [] => none
  | (k1, v) :: rest => if k1 = k then some v else dictGet? rest k

/-- Python d.get(k, dflt). -/
def dictGetD (d : Dict) (k : String) (dflt : Int) : Int :=
  (dictGet? d k).getD dflt

/-- Python d[k] = v: update the first binding in place, else append. -/
def dictSet (d : Dict) (k : String) (v : Int) : Dict :=
  match d with
  | [] => [(k, v)]
  | (k1, v1) :: rest =>
    if k1 = k then (k1, v) :: rest else (k1, v1) :: dictSet rest k v

/-- Python dict comprehension from a list of pairs (later duplicate keys
overwrite, key keeps its first position). -/
def dictOfPairs (ps : List (String × Int)) : Dict :=
  ps.foldl (fun d p => dictSet d p.1 p.2) []

def dictKeys (d : Dict) : List String := d.map (fun p => p.1)

/-- Python truthiness of a dict: nonempty. -/
def dictTruthy (d : Dict) : Bool := !d.isEmpty

/-- Python `k in d`. -/
def dictHas (d : Dict) (k : String) : Bool := (dictGet? d k).isSome

/-! ## String helpers mirroring Python str methods -/

/-- Python whitespace class (backslash-s) over the ASCII range. -/
def isSpaceC (c : Char) : Bool :=
  c = ' ' || c = '\t' || c = '\n' || c = '\r' || c = '\x0b' || c = '\x0c'

def isDigitC (c : Char) : Bool := c.isDigit

/-- Regex word character class: alphanumeric or underscore. -/
def isWordC (c : Char) : Bool := c.isAlphanum || c = '_'

def stripLeft (l : List Char) : List Char := l.dropWhile isSpaceC

/-- Python str.strip over a char list. -/
def stripChars (l : List Char) : List Char :=
  ((l.dropWhile isSpaceC).reverse.dropWhile isSpaceC).reverse

def pstrip (s : String) : String := String.mk (stripChars s.data)

/-- Python str.rstrip(",") over a char list. -/
def rstripCommas (s : String) : String :=
  String.mk ((s.data.reverse.dropWhile (fun c => c = ',')).reverse)

/-- Python str.rstrip("0123456789"). -/
def rstripDigits (s : String) : String :=
  String.mk ((s.data.reverse.dropWhile isDigitC).reverse)

def lowerStr (s : String) : String := String.mk (s.data.map Char.toLower)

/-- Case-insensitive char equality (ASCII lowering, as in re.IGNORECASE). -/
def ciEq (a b : Char) : Bool := a.toLower = b.toLower

/-- Substring containment on char lists (Python `pat in s`). -/
def listContainsSub (hay pat : List Char) : Bool :=
  match hay with
  | [] => pat.isEmpty
  | _ :: t => pat.isPrefixOf hay || listContainsSub t pat

def strContains (hay pat : String) : Bool := listContainsSub hay.data pat.data

/-- Case-insensitive substring containment. -/
def ciPrefixOf : List Char → List Char → Bool
  | [], _ => true
  | _ :: _, [] => false
  | p :: ps, c :: cs => ciEq p c && ciPrefixOf ps cs

def ciContainsSub (hay pat : List Char) : Bool :=
  match hay with
  | [] => pat.isEmpty
  | _ :: t => ciPrefixOf pat hay || ciContainsSub t pat

def ciContains (hay pat : String) : Bool := ciContainsSub hay.data pat.data

/-- Python str.isdigit on ASCII strings: nonempty and all digits. -/
def pyIsDigit (s : String) : Bool :=
  !s.isEmpty && s.data.all isDigitC

/-- Digits to Nat (the strings fed to int() are plain digit runs). -/
def digitsToNat (l : List Char) : Nat :=
  l.foldl (fun n c => n * 10 + (c.toNat - 48)) 0

/-- Python str.replace(old, new, 1): replace the first occurrence only. -/
def replaceFirstChars (s old new : List Char) : List Char :=
  match s with
  | [] => if old.isEmpty then new else []
  | c :: t =>
    if old.isPrefixOf s then new ++ s.drop old.length
    else c :: replaceFirstChars t old new

def replaceFirst (s old new : String) : String :=
  String.mk (replaceFirstChars s.data old.data new.data)

/-- Python str.split(sep) for a nonempty separator, by fuel over the
input length (each step past a separator consumes at least one
character); structurally computable so that proofs can evaluate it. -/
def pySplitGo (sep : List Char) : Nat → List Char → List Char → List (List Char)
  | _, [], acc => [acc]
  | 0, l, acc => [acc ++ l]
  | Nat.succ fuel, c :: t, acc =>
    if sep.isPrefixOf (c :: t) then
      acc :: pySplitGo sep fuel ((c :: t).drop sep.length) []
    else pySplitGo sep fuel t (acc ++ [c])

def pySplit (s sep : String) : List String :=
  (pySplitGo sep.data (s.data.length + 1) s.data []).map String.mk

/-- Python text[-n:] (take the last n characters when longer). -/
def takeRight (s : String) (n : Nat) : String :=
  if s.data.length ≤ n then s else String.mk (s.data.drop (s.data.length - n))

/-! ## Data model (backend/models/pattern.py) -/

inductive OperationType where
  | KNIT | PURL | SLIP | K2TOG | SSK | P2TOG | SSP | SK2P | S2KP
  | K3TOG | P3TOG | YO | M1L | M1R | M1 | KFB | PFB | WORK_EVEN
  | BIND_OFF | CAST_ON | REPEAT_BLOCK | UNKNOWN
  deriving DecidableEq, Repr

/-- The STITCH_EFFECTS dict from models/pattern.py, verbatim.  Note that it
has no entry for co, sm or pm; lookups for those fall back to the default 0
passed to dict.get. -/
def STITCH_EFFECTS : List (String × Int) :=
  [ ("k", 0), ("p", 0), ("sl", 0), ("sl1", 0), ("wyif", 0), ("wyib", 0),
    ("k2tog", -1), ("ssk", -1), ("p2tog", -1), ("ssp", -1),
    ("sk2p", -2), ("s2kp", -2), ("k3tog", -2), ("p3tog", -2), ("cdd", -2),
    ("yo", 1), ("m1", 1), ("m1l", 1), ("m1r", 1), ("m1p", 1),
    ("kfb", 1), ("pfb", 1), ("kll", 1), ("krl", 1),
    ("work_even", 0), ("bo", -1) ]

/-- Python STITCH_EFFECTS.get(op_str, 0). -/
def stitchEffectsGet (k : String) : Int :=
  match STITCH_EFFECTS.find? (fun p => p.1 = k) with
  | some p => p.2
  | none => 0

structure Operation where
  raw : String
  op_type : OperationType
  count : Int := 1
  count_effect : Int := 0
  stitches_consumed : Int := 0
  deriving DecidableEq, Repr

def Operation.total_effect (op : Operation) : Int := op.count_effect * op.count

def Operation.total_consumed (op : Operation) : Int := op.stitches_consumed * op.count

structure RepeatBlock where
  operations : List Operation := []
  repeat_count : Option Int := none
  repeat_to_end : Bool := false
  until_sts_remain : Option Int := none
  raw : String := ""
  deriving DecidableEq, Repr

def RepeatBlock.single_pass_effect (b : RepeatBlock) : Int :=
  (b.operations.map (fun op => op.total_effect)).sum

def RepeatBlock.single_pass_consumed (b : RepeatBlock) : Int :=
  (b.operations.map (fun op =>
    max op.stitches_consumed (|min 0 op.count_effect|) * op.count
      + max 0 op.count_effect * 0)).sum

def RepeatBlock.net_stitches_per_repeat (b : RepeatBlock) : Int :=
  (b.operations.map (fun op => op.total_effect)).sum

/-- Verbatim embedding of RepeatBlock.stitches_consumed_per_repeat: it
switches on op_type rather than using the stitches_consumed field, and its
final else branch charges 1 stitch per count. -/
def RepeatBlock.stitches_consumed_per_repeat (b : RepeatBlock) : Int :=
  b.operations.foldl (fun consumed op =>
    if op.op_type = OperationType.YO ∨ op.op_type = OperationType.M1L
        ∨ op.op_type = OperationType.M1R ∨ op.op_type = OperationType.M1 then
      consumed + 0
    else if op.op_type = OperationType.KFB then
      consumed + 1 * op.count
    else if op.op_type = OperationType.K2TOG ∨ op.op_type = OperationType.SSK
        ∨ op.op_type = OperationType.P2TOG ∨ op.op_type = OperationType.SSP then
      consumed + 2 * op.count
    else if op.op_type = OperationType.SK2P ∨ op.op_type = OperationType.S2KP
        ∨ op.op_type = OperationType.K3TOG ∨ op.op_type = OperationType.P3TOG then
      consumed + 3 * op.count
    else
      consumed + 1 * op.count) 0

/-- Embedding of the Row dataclass.  The dataclass in models/pattern.py
declares twelve fields; the fields line_number and cast_on_extra are NOT
among them although pattern_parser.py passes both as constructor keyword
arguments and stitch_counter.py reads both as attributes.  They are
modelled here as optional fields, following those construction and use
sites and the specification of the Row record; the omission itself is the
subject of a dedicated theorem below. -/
structure Row where
  number : Option Nat := none
  raw_text : String := ""
  line_number : Option Nat := none
  side : Option String := none
  is_round : Bool := false
  operations : List Operation := []
  repeat_blocks : List RepeatBlock := []
  expected_sts : Option Dict := none
  calculated_sts : Option Dict := none
  errors : List String := []
  warnings : List String := []
  is_repeat_ref : Bool := false
  cast_on_extra : Option Int := none
  segment_label : Option String := none
  deriving DecidableEq, Repr

/-- The field names that the Row dataclass in models/pattern.py actually
declares, in source order. -/
def rowDataclassFields : List String :=
  [ "number", "raw_text", "side", "is_round", "operations", "repeat_blocks",
    "expected_sts", "calculated_sts", "errors", "warnings", "is_repeat_ref",
    "segment_label" ]

/-- Keyword-argument names used at the four Row construction sites inside
parse_pattern (pattern_parser.py): the mid-pattern extra cast-on row, the
synthetic cast-on Row 0, the repeat-reference row and the ordinary row. -/
def parsePatternRowKwargSites : List (List String) :=
  [ ["raw_text", "line_number", "cast_on_extra"],
    ["number", "raw_text", "line_number", "expected_sts", "calculated_sts"],
    ["raw_text", "line_number", "is_repeat_ref", "segment_label"],
    ["number", "raw_text", "line_number", "side", "is_round", "operations",
      "repeat_blocks", "expected_sts"] ]

structure Section where
  name : String := ""
  rows : List Row := []
  notes : String := ""
  is_repeat_segment : Bool := false
  deriving DecidableEq, Repr

/-- Issue record: the heterogeneous Python dicts appended to
pattern.errors and pattern.warnings, modelled with optional fields. -/
structure ErrorRec where
  type : String := ""
  size : Option String := none
  row : Option Nat := none
  row_label : Option String := none
  message : String := ""
  raw_text : Option String := none
  line : Option Nat := none
  deriving DecidableEq, Repr

structure Pattern where
  raw_text : String := ""
  sizes : List String := []
  cast_on_counts : Dict := []
  sections : List Section := []
  materials : Option String := none
  gauge : Option String := none
  finished_measurements : Option String := none
  abbreviations : Option String := none
  notes : Option String := none
  errors : List ErrorRec := []
  warnings : List ErrorRec := []
  grammar_issues : List ErrorRec := []
  format_issues : List ErrorRec := []
  deriving DecidableEq, Repr

/-! ## Stitch count evaluator (backend/validator/stitch_counter.py) -/

/-- The warning text of the repeat-to-end does-not-divide branch. -/
def msgRepeatToEndDiv (available consumed_per repeats leftover : Int) : String :=
  "Repeat-to-end does not divide evenly: " ++ toString available ++ " sts / "
    ++ toString consumed_per ++ " per repeat = " ++ toString repeats
    ++ " repeats with " ++ toString leftover ++ " leftover"

/-- The warning text of the until-mode does-not-divide branch. -/
def msgUntilDiv (workable consumed_per repeats leftover : Int) : String :=
  "Repeat block does not divide evenly: " ++ toString workable
    ++ " workable sts / " ++ toString consumed_per ++ " per repeat = "
    ++ toString repeats ++ " repeats with " ++ toString leftover ++ " leftover"

/-- The stitch-count mismatch message, phrased by the sign of the net
change, exactly as in calculate_row_stitches. -/
def mismatchMsg (ending net_change expected : Int) : String :=
  if net_change > 0 then
    "Stitch count mismatch: calculated " ++ toString ending
      ++ " sts (includes +" ++ toString net_change
      ++ " from increases in this row), pattern states "
      ++ toString expected ++ " sts — pattern may need updating."
  else if net_change < 0 then
    "Stitch count mismatch: calculated " ++ toString ending
      ++ " sts (includes " ++ toString net_change
      ++ " from decreases in this row), pattern states "
      ++ toString expected ++ " sts"
  else
    "Stitch count mismatch: calculated " ++ toString ending
      ++ " sts, pattern states " ++ toString expected ++ " sts"

/-- Embedding of _calculate_repeat_block.  Python floor division and
modulo correspond to Int.fdiv and Int.fmod (both round toward the sign of
the divisor).  Note the early return (0, none) when consumed_per is 0:
it precedes every mode branch, so the two infinite-loop message branches
further down are unreachable. -/
def _calculate_repeat_block (block : RepeatBlock) (available_sts : Int) :
    Int × Option String :=
  let consumed_per := block.stitches_consumed_per_repeat
  let net_per := block.net_stitches_per_repeat
  if consumed_per = 0 then (0, none)
  else
    match block.repeat_count with
    | some rc =>
      let total_consumed := consumed_per * rc
      if total_consumed > available_sts then
        (0, some ("Repeat block consumes " ++ toString consumed_per ++ " sts x "
          ++ toString rc ++ " = " ++ toString total_consumed
          ++ " sts, but only " ++ toString available_sts ++ " available"))
      else (net_per * rc, none)
    | none =>
      match block.until_sts_remain with
      | some u =>
        let workable := available_sts - u
        if workable < 0 then
          (0, some ("\x27Until " ++ toString u ++ " sts remain\x27 but only "
            ++ toString available_sts ++ " available"))
        else if consumed_per = 0 then
          (0, some ("Repeat block consumes 0 stitches — infinite loop"))
        else
          let repeats := workable.fdiv consumed_per
          if repeats = 0 then (0, none)
          else
            let leftover := workable - repeats * consumed_per
            if leftover ≠ 0 then
              (net_per * repeats, some (msgUntilDiv workable consumed_per repeats leftover))
            else (net_per * repeats, none)
      | none =>
        if block.repeat_to_end then
          if consumed_per = 0 then
            (0, some ("Repeat-to-end block consumes 0 stitches — infinite loop"))
          else
            let repeats := available_sts.fdiv consumed_per
            let leftover := available_sts.fmod consumed_per
            if leftover ≠ 0 then
              (net_per * repeats,
                some (msgRepeatToEndDiv available_sts consumed_per repeats leftover))
            else (net_per * repeats, none)
        else (net_per, none)

/-- The repeat-block loop inside calculate_row_stitches: threads the net
change, the remaining stitches available to repeats, and the error and
warning lists, in source order. -/
def blocksLoop (blocks : List RepeatBlock) (net_change remaining : Int)
    (errors warnings : List String) : Int × Int × List String × List String :=
  match blocks with
  | [] => (net_change, remaining, errors, warnings)
  | block :: rest =>
    let bres := _calculate_repeat_block block remaining
    let net_change := net_change + bres.1
    let consumed_this_block := block.stitches_consumed_per_repeat
    let remaining :=
      match block.repeat_count with
      | some rc => remaining - consumed_this_block * rc
      | none =>
        if block.repeat_to_end then
          if consumed_this_block > 0 then
            remaining - consumed_this_block * (remaining.fdiv consumed_this_block)
          else remaining
        else
          match block.until_sts_remain with
          | some u => u
          | none => remaining
    let ew : List String × List String :=
      match bres.2 with
      | none => (errors, warnings)
      | some msg =>
        if strContains msg ("does not divide evenly") || strContains msg ("leftover") then
          (errors, warnings ++ [msg])
        else (errors ++ [msg], warnings)
    blocksLoop rest net_change remaining ew.1 ew.2

/-- Python `row.expected_sts and size in row.expected_sts`, returning the
looked-up value when the guard passes. -/
def expectedLookup (row : Row) (size : String) : Option Int :=
  match row.expected_sts with
  | none => none
  | some d => if d.isEmpty then none else dictGet? d size

/-- Embedding of calculate_row_stitches.  Returns (ending count, errors,
warnings). -/
def calculate_row_stitches (row : Row) (starting_sts : Int) (size : String) :
    Int × List String × List String :=
  if row.is_repeat_ref then (starting_sts, [], [])
  else match row.cast_on_extra with
  | some extra => (starting_sts + extra, [], [])
  | none =>
    if row.operations.any (fun op => op.op_type = OperationType.WORK_EVEN) then
      (starting_sts, [], [])
    else
      let net0 := (row.operations.map (fun op => op.total_effect)).sum
      let sts_accounted := (row.operations.map (fun op => op.stitches_consumed * op.count)).sum
      let remaining_for_repeats := starting_sts - sts_accounted
      let res := blocksLoop row.repeat_blocks net0 remaining_for_repeats [] []
      let net_change := res.1
      let errors := res.2.2.1
      let warnings := res.2.2.2
      let ending := starting_sts + net_change
      if row.number = some 0 then
        let ending :=
          match expectedLookup row size with
          | some v => v
          | none => ending
        (max ending 0, errors, warnings)
      else
        match expectedLookup row size with
        | some expected =>
          if expected = starting_sts ∧ net_change ≠ 0 then
            (max ending 0, errors, warnings)
          else if net_change = 0 ∧ expected < ending then
            (max ending 0, errors, warnings)
          else if ending ≠ expected then
            (max ending 0, errors ++ [mismatchMsg ending net_change expected], warnings)
          else (max ending 0, errors, warnings)
        | none => (max ending 0, errors, warnings)

/-- Python row label expression used when appending pattern-level issues. -/
def rowLabelOf (row : Row) : String :=
  match row.number with
  | some n => "Row " ++ toString n
  | none => "Instruction"

/-- Python str() of an optional int (None prints as None inside f-strings). -/
def pyOptNat (o : Option Nat) : String :=
  match o with
  | some n => toString n
  | none => "None"

/-- One row of the per-size validation loop inside validate_pattern:
returns the updated row, the new running count, and the pattern-level
error and warning records appended for this row. -/
def processRow (size : String) (current_sts : Int) (row : Row) :
    Row × Int × List ErrorRec × List ErrorRec :=
  let res := calculate_row_stitches row current_sts size
  let ending := res.1
  let row_errors := res.2.1
  let row_warnings := res.2.2
  let row1 : Row :=
    { row with calculated_sts := some (dictSet ((row.calculated_sts).getD []) size ending) }
  match row.number, expectedLookup row size with
  | some 0, some v =>
    ({ row1 with calculated_sts := some (dictSet ((row1.calculated_sts).getD []) size v) },
      v, [], [])
  | _, _ =>
    let erecs := row_errors.map (fun err =>
      { type := "stitch_count", size := some size, row := row.number,
        row_label := some (rowLabelOf row), message := err,
        raw_text := some row.raw_text : ErrorRec })
    let wrecs := row_warnings.map (fun warn =>
      { type := "stitch_count_warning", size := some size, row := row.number,
        row_label := some (rowLabelOf row), message := warn,
        raw_text := some row.raw_text : ErrorRec })
    let row2 : Row :=
      { row1 with
        errors := row1.errors ++ row_errors.map (fun e => "[" ++ size ++ "] " ++ e)
        warnings := row1.warnings ++ row_warnings.map (fun w => "[" ++ size ++ "] " ++ w) }
    (row2, ending, erecs, wrecs)

def processRows (size : String) (current_sts : Int) :
    List Row → List Row × Int × List ErrorRec × List ErrorRec
  | [] => ([], current_sts, [], [])
  | row :: rest =>
    let r1 := processRow size current_sts row
    let r2 := processRows size r1.2.1 rest
    (r1.1 :: r2.1, r2.2.1, r1.2.2.1 ++ r2.2.2.1, r1.2.2.2 ++ r2.2.2.2)

def processSections (size : String) (current_sts : Int) :
    List Section → List Section × Int × List ErrorRec × List ErrorRec
  | [] => ([], current_sts, [], [])
  | sec :: rest =>
    let r1 := processRows size current_sts sec.rows
    let r2 := processSections size r1.2.1 rest
    ({ sec with rows := r1.1 } :: r2.1, r2.2.1,
      r1.2.2.1 ++ r2.2.2.1, r1.2.2.2 ++ r2.2.2.2)

/-- One size of the outer loop of validate_pattern. -/
def passSize (p : Pattern) (size : String) : Pattern :=
  let r := processSections size (dictGetD p.cast_on_counts size 0) p.sections
  { p with
    sections := r.1
    errors := p.errors ++ r.2.2.1
    warnings := p.warnings ++ r.2.2.2 }

/-- Inner loop of _check_cross_row_consistency for one size: threads the
previous non-repeat-ref row. -/
def crossRowLoop (size : String) (prev_row : Option Row) :
    List Row → List ErrorRec
  | [] => []
  | row :: rest =>
    if row.is_repeat_ref then crossRowLoop size prev_row rest
    else
      let here : List ErrorRec :=
        match prev_row with
        | none => []
        | some prev =>
          match row.calculated_sts, prev.calculated_sts with
          | some c, some pc =>
            if c.isEmpty || pc.isEmpty then []
            else
              let prev_end := dictGetD pc size 0
              let curr_end := dictGetD c size 0
              if (expectedLookup row size).isSome then []
              else if row.operations.isEmpty ∧ row.repeat_blocks.isEmpty
                  ∧ curr_end ≠ prev_end then
                [{ type := "consistency", size := some size, row := row.number,
                   message := "Row " ++ pyOptNat row.number
                     ++ " has no parsed operations but stitch count changed from "
                     ++ toString prev_end ++ " to " ++ toString curr_end,
                   raw_text := some row.raw_text : ErrorRec }]
              else []
          | _, _ => []
      here ++ crossRowLoop size (some row) rest

/-- Embedding of _check_cross_row_consistency: appends consistency
warnings; prev_row threads across section boundaries. -/
def _check_cross_row_consistency (p : Pattern) : Pattern :=
  let warns := p.sizes.flatMap (fun size => crossRowLoop size none (p.sections.flatMap (fun s => s.rows)))
  { p with warnings := p.warnings ++ warns }

/-- The defaulting prologue of validate_pattern: an empty size list
becomes Size1, and empty cast-on counts become 0 for every size. -/
def validatePatternPre (pattern : Pattern) : Pattern :=
  let pattern :=
    if pattern.sizes.isEmpty then { pattern with sizes := ["Size1"] } else pattern
  if pattern.cast_on_counts.isEmpty then
    { pattern with cast_on_counts := dictOfPairs (pattern.sizes.map (fun s => (s, 0))) }
  else pattern

/-- Embedding of validate_pattern up to but excluding the document-wide
assertion check (added further down once the assertion extractor is
defined). -/
def validatePatternCore (pattern : Pattern) : Pattern :=
  let pattern := validatePatternPre pattern
  _check_cross_row_consistency (pattern.sizes.foldl passSize pattern)

/-! ## A small backtracking matcher library for the hand-compiled regexes

A matcher takes the remaining character list and returns all ways to
consume a prefix, in regex preference order: ordered alternation, greedy
quantifiers longest-first, lazy quantifiers shortest-first.  The first
result of a matcher therefore corresponds to the match the Python re
engine produces, and searching positions left to right gives re.search
semantics. -/

abbrev Mch (α : Type) : Type := List Char → List (α × List Char)

def mpure {α : Type} (a : α) : Mch α := fun s => [(a, s)]

def mbind {α β : Type} (m : Mch α) (f : α → Mch β) : Mch β :=
  fun s => (m s).flatMap (fun p => f p.1 p.2)

def mmap {α β : Type} (f : α → β) (m : Mch α) : Mch β :=
  mbind m (fun a => mpure (f a))

def malt {α : Type} (m1 m2 : Mch α) : Mch α := fun s => m1 s ++ m2 s

def mthen {α β : Type} (m1 : Mch α) (m2 : Mch β) : Mch (α × β) :=
  mbind m1 (fun a => mbind m2 (fun b => mpure (a, b)))

def mskip {α β : Type} (m1 : Mch α) (m2 : Mch β) : Mch β :=
  mbind m1 (fun _ => m2)

def mkeep {α β : Type} (m1 : Mch α) (m2 : Mch β) : Mch α :=
  mbind m1 (fun a => mbind m2 (fun _ => mpure a))

/-- Greedy optional: try with the sub-matcher first, as (...)?. -/
def moptSkip {α : Type} (m : Mch α) : Mch Unit :=
  malt (mmap (fun _ => ()) m) (mpure ())

def stripPrefixCI : List Char → List Char → Option (List Char)
  | [], s => some s
  | _ :: _, [] => none
  | p :: ps, c :: cs => if ciEq p c then stripPrefixCI ps cs else none

/-- Case-insensitive literal. -/
def mlitCI (lit : String) : Mch Unit := fun s =>
  match stripPrefixCI lit.data s with
  | some r => [((), r)]
  | none => []

def mcharP (p : Char → Bool) : Mch Char := fun s =>
  match s with
  | c :: r => if p c then [(c, r)] else []
  | [] => []

def mchar (ch : Char) : Mch Char := mcharP (fun c => c = ch)

/-- All splits of the run up to length n, longest first. -/
def takeDropDesc (s : List Char) : Nat → List (List Char × List Char)
  | 0 => [([], s)]
  | Nat.succ n => (s.take (Nat.succ n), s.drop (Nat.succ n)) :: takeDropDesc s n

/-- Greedy star over a character class, longest first (with backtracking). -/
def mstarP (p : Char → Bool) : Mch (List Char) := fun s =>
  takeDropDesc s ((s.takeWhile p).length)

/-- Greedy plus over a character class, longest first, at least one char. -/
def mplusP (p : Char → Bool) : Mch (List Char) := fun s =>
  (takeDropDesc s ((s.takeWhile p).length)).filter (fun pr => !pr.1.isEmpty)

def mws0 : Mch (List Char) := mstarP isSpaceC

def mws1 : Mch (List Char) := mplusP isSpaceC

def mdigits : Mch (List Char) := mplusP isDigitC

def mEnd : Mch Unit := fun s => if s.isEmpty then [((), [])] else []

/-- Everything to the end of the input, as a final greedy dot-star. -/
def mAllRest : Mch (List Char) := fun s => [(s, [])]

/-- re.match: the preferred match anchored at the start. -/
def mmatchQ {α : Type} (m : Mch α) (s : String) : Option α :=
  match m s.data with
  | (a, _) :: _ => some a
  | [] => none

/-- re.search with the skipped prefix and the rest, leftmost preferred. -/
def msearchSplit {α : Type} (m : Mch α) : List Char → Option (List Char × α × List Char)
  | [] =>
    match m [] with
    | (a, r) :: _ => some ([], a, r)
    | [] => none
  | c :: t =>
    match m (c :: t) with
    | (a, r) :: _ => some ([], a, r)
    | [] => (msearchSplit m t).map (fun pr => (c :: pr.1, pr.2.1, pr.2.2))

/-- re.search returning only the captures. -/
def msearch {α : Type} (m : Mch α) (s : List Char) : Option α :=
  (msearchSplit m s).map (fun pr => pr.2.1)

def msearchB {α : Type} (m : Mch α) (s : List Char) : Bool :=
  (msearch m s).isSome

/-- re.finditer: non-overlapping matches left to right, each with its
group(0) text and captures.  The fuel is in practice the input length: no
pattern compiled here can match the empty string, so every step consumes
at least one character. -/
def mfindIter {α : Type} (m : Mch α) : Nat → List Char → List (List Char × α)
  | 0, _ => []
  | Nat.succ fuel, s =>
    match msearchSplit m s with
    | none => []
    | some (pre, a, rest) =>
      let g0 := (s.drop pre.length).take (s.length - pre.length - rest.length)
      (g0, a) :: mfindIter m fuel rest

/-! ## Size and assertion parsing (backend/parser/size_parser.py) -/

/-- Matcher for the regex sizes?[ws]*:[ws]*(.+) used by
parse_size_definitions. -/
def sizesDefMch : Mch (List Char) :=
  mskip (mlitCI ("size")) (mskip (moptSkip (mlitCI ("s"))) (mskip mws0
    (mskip (mchar ':') (mskip mws0 (mbind mAllRest (fun cap =>
      if cap.isEmpty then fun _ => [] else mpure cap))))))

/-- Maximal runs of non-separator characters (re.split on [,slash]+ with
empty pieces subsequently discarded by the strip filter); the first
argument accumulates the current run in reverse. -/
def splitRunsGo (sep : Char → Bool) (acc : List Char) : List Char → List (List Char)
  | [] => if acc.isEmpty then [] else [acc.reverse]
  | c :: t =>
    if sep c then
      if acc.isEmpty then splitRunsGo sep [] t
      else acc.reverse :: splitRunsGo sep [] t
    else splitRunsGo sep (c :: acc) t

def splitRuns (sep : Char → Bool) (l : List Char) : List (List Char) :=
  splitRunsGo sep [] l

/-- Embedding of parse_size_definitions. -/
def parse_size_definitions (text : String) : List String :=
  match msearch sizesDefMch text.data with
  | none => []
  | some raw =>
    let raw := stripChars raw
    let raw := raw.map (fun c => if c = '(' ∨ c = ')' then ',' else c)
    ((splitRuns (fun c => c = ',' ∨ c = '/') raw).map
      (fun piece => pstrip (String.mk piece))).filter (fun s => !s.isEmpty)

/-- re.sub of [,;]+ with a single space. -/
def collapseCS : List Char → Bool → List Char
  | [], _ => []
  | c :: t, inRun =>
    if c = ',' ∨ c = ';' then
      if inRun then collapseCS t true else ' ' :: collapseCS t true
    else c :: collapseCS t false

def wordBoundaryAfter (rest : List Char) : Bool :=
  match rest with
  | [] => true
  | c :: _ => !isWordC c

/-- Try one case-insensitive unit word with a trailing word boundary,
returning the number of characters consumed. -/
def tryUnitLit (lit : String) (s : List Char) : Option Nat :=
  match stripPrefixCI lit.data s with
  | some rest => if wordBoundaryAfter rest then some lit.data.length else none
  | none => none

/-- One attempt of the alternation sts? | stitches? | CO | cast[ws]*on at
the current position (the leading word boundary is checked by the
caller), in engine preference order. -/
def unitMatchLen (s : List Char) : Option Nat :=
  match tryUnitLit ("sts") s with
  | some k => some k
  | none =>
  match tryUnitLit ("st") s with
  | some k => some k
  | none =>
  match tryUnitLit ("stitches") s with
  | some k => some k
  | none =>
  match tryUnitLit ("stitch") s with
  | some k => some k
  | none =>
  match tryUnitLit ("co") s with
  | some k => some k
  | none =>
  match stripPrefixCI ("cast").data s with
  | some rest =>
    let ws := rest.takeWhile isSpaceC
    match stripPrefixCI ("on").data (rest.drop ws.length) with
    | some rest2 =>
      if wordBoundaryAfter rest2 then some (4 + ws.length + 2) else none
    | none => none
  | none => none

/-- The word-boundary-delimited unit removal pass of
parse_multi_size_values (each matched unit is replaced by one space). -/
def subUnits : Nat → List Char → Option Char → List Char
  | 0, s, _ => s
  | Nat.succ fuel, s, prev =>
    match s with
    | [] => []
    | c :: t =>
      let boundaryOk := match prev with | none => true | some p => !isWordC p
      if boundaryOk then
        match unitMatchLen s with
        | some k =>
          ' ' :: subUnits fuel (s.drop k) (some (((s.take k).getLastD ' ')))
        | none => c :: subUnits fuel t (some c)
      else c :: subUnits fuel t (some c)

/-- re.findall of word-boundary-delimited digit runs. -/
def findNums : Nat → List Char → Option Char → List (List Char)
  | 0, _, _ => []
  | Nat.succ fuel, s, prev =>
    match s with
    | [] => []
    | c :: t =>
      if isDigitC c then
        let run := s.takeWhile isDigitC
        let rest := s.drop run.length
        let lead := match prev with | none => true | some p => !isWordC p
        if lead && wordBoundaryAfter rest then
          run :: findNums fuel rest (some (run.getLastD '0'))
        else findNums fuel rest (some (run.getLastD '0'))
      else findNums fuel t (some c)

/-- Embedding of parse_multi_size_values. -/
def parse_multi_size_values (text : String) : List Int :=
  let cleaned := text.data.map (fun c => if c = '(' ∨ c = ')' then ' ' else c)
  let cleaned := collapseCS cleaned false
  let cleaned := subUnits (cleaned.length + 1) cleaned none
  (findNums (cleaned.length + 1) cleaned none).map (fun l => (digitsToNat l : Int))

/-- Tail test for the lazy capture of parse_cast_on_line: does
([backslash-b]sts?[backslash-b] | end-of-string) match right after a
capture ending in lastC. -/
def coTailCheck (lastC : Char) (rest : List Char) : Bool :=
  (!isWordC lastC &&
    (match tryUnitLit ("sts") rest with
     | some _ => true
     | none => (tryUnitLit ("st") rest).isSome)) || rest.isEmpty

/-- Lazy (.+?) growth for parse_cast_on_line: shortest capture whose tail
matches. -/
def coCaptureGrow (acc : List Char) : List Char → Option (List Char)
  | [] => none
  | c :: t =>
    if coTailCheck c t then some (acc ++ [c]) else coCaptureGrow (acc ++ [c]) t

/-- Whitespace-run candidates for the [ws]+ after CO, longest first, then
the lazy capture. -/
def coAfterWs : Nat → List Char → Option (List Char)
  | 0, _ => none
  | Nat.succ k, rest =>
    match coCaptureGrow [] (rest.drop (Nat.succ k)) with
    | some cap => some cap
    | none => coAfterWs k rest

/-- The head alternation (CO | cast[ws]*on) followed by [ws]+ and the
lazy capture, tried at one position. -/
def coAtPos (s : List Char) : Option (List Char) :=
  let viaCO :=
    match stripPrefixCI ("co").data s with
    | some rest =>
      let wsLen := (rest.takeWhile isSpaceC).length
      if wsLen = 0 then none else coAfterWs wsLen rest
    | none => none
  match viaCO with
  | some cap => some cap
  | none =>
    match stripPrefixCI ("cast").data s with
    | some rest =>
      let ws := rest.takeWhile isSpaceC
      match stripPrefixCI ("on").data (rest.drop ws.length) with
      | some rest2 =>
        let wsLen := (rest2.takeWhile isSpaceC).length
        if wsLen = 0 then none else coAfterWs wsLen rest2
      | none => none
    | none => none

def coSearch : List Char → Option (List Char)
  | [] => none
  | s@(_ :: t) =>
    match coAtPos s with
    | some cap => some cap
    | none => coSearch t

/-- Embedding of parse_cast_on_line. -/
def parse_cast_on_line (text : String) : List Int :=
  match coSearch text.data with
  | some cap => parse_multi_size_values (String.mk cap)
  | none => parse_multi_size_values text

/-- Matcher for sts?[ws]+remain | remain[ws]+on. -/
def remainMch : Mch Unit :=
  malt
    (mskip (mlitCI ("st")) (mskip (moptSkip (mlitCI ("s")))
      (mskip mws1 (mlitCI ("remain")))))
    (mskip (mlitCI ("remain")) (mskip mws1 (mlitCI ("on"))))

def isDashC (c : Char) : Bool := c = '-' || c = '–' || c = '—'

def isNumWsCommaParen (c : Char) : Bool :=
  isDigitC c || isSpaceC c || c = ',' || c = '(' || c = ')'

def isNumWsComma (c : Char) : Bool :=
  isDigitC c || isSpaceC c || c = ','

/-- Matcher for the end-of-row dash assertion of
extract_stated_stitch_count: dash [ws]* ([digits ws , ( )]+) [ws]* sts?
[ws]* .? [ws]* $. -/
def statedDashMch : Mch (List Char) :=
  mskip (mcharP isDashC) (mskip mws0 (mbind (mplusP isNumWsCommaParen) (fun cap =>
    mskip mws0 (mskip (mlitCI ("st")) (mskip (moptSkip (mlitCI ("s")))
      (mskip mws0 (mskip (moptSkip (mchar '.')) (mskip mws0
        (mskip mEnd (mpure cap))))))))))

/-- Matcher for the end-of-row parenthetical assertion: ( [digits ws ,]+ )
preceding sts? then [ws]* ) [ws]* $ per the source regex. -/
def statedParenMch : Mch (List Char) :=
  mskip (mchar '(') (mskip mws0 (mbind (mplusP isNumWsComma) (fun cap =>
    mskip mws0 (mskip (mlitCI ("st")) (mskip (moptSkip (mlitCI ("s")))
      (mskip mws0 (mskip (mchar ')') (mskip mws0
        (mskip mEnd (mpure cap))))))))))

/-- Embedding of extract_stated_stitch_count.  Returns none where Python
returns None; a returned empty list is falsy at the call sites, like an
empty Python list. -/
def extract_stated_stitch_count (text : String) : Option (List Int) :=
  let text := pstrip text
  if msearchB remainMch text.data then none
  else
    match msearch statedDashMch text.data with
    | some cap => some (parse_multi_size_values (String.mk cap))
    | none =>
      let tail := takeRight text 55
      match msearch statedParenMch tail.data with
      | some cap => some (parse_multi_size_values (String.mk cap))
      | none => none

/-! ## Stitch tokenizer (backend/parser/stitch_parser.py) -/

/-- The STITCH_ALIASES dict, in source order. -/
def STITCH_ALIASES : List (String × String) :=
  [ ("knit", "k"), ("purl", "p"), ("slip", "sl"), ("slip 1", "sl1"),
    ("slip marker", "sm"), ("place marker", "pm"),
    ("k2 tog", "k2tog"), ("k 2 tog", "k2tog"), ("p2 tog", "p2tog"),
    ("p 2 tog", "p2tog"), ("k3 tog", "k3tog"), ("p3 tog", "p3tog"),
    ("kfab", "kfb"), ("m 1 l", "m1l"), ("m 1 r", "m1r"), ("m 1", "m1"),
    ("make 1 left", "m1l"), ("make 1 right", "m1r"), ("yarn over", "yo"),
    ("bind off", "bo"), ("cast on", "co") ]

/-- The alias loop of parse_stitch: each alias whose text equals the
current token (lowercased) replaces it with the canonical form. -/
def aliasFold (token : String) : String :=
  STITCH_ALIASES.foldl (fun t al => if lowerStr t = al.1 then al.2 else t) token

/-- The ordered alternation of the op group of _STITCH_PATTERN. -/
def STITCH_ALTS : List String :=
  [ "k3tog", "p3tog", "k2tog", "p2tog", "ssk", "ssp", "sk2p", "s2kp", "cdd",
    "kfb", "pfb", "m1l", "m1r", "m1p", "m1", "yo",
    "sl1", "sl", "wyif", "wyib", "sm", "pm", "bo", "co", "k", "p" ]

/-- re.match of _STITCH_PATTERN at the start of a token: the first
alternative that matches wins (nothing after the optional count constrains
the choice), then an optional greedy digit run is taken as the count. -/
def stitchMatchAt (s : List Char) : Option (String × Option Nat) :=
  match STITCH_ALTS.find? (fun alt => ciPrefixOf alt.data s) with
  | none => none
  | some alt =>
    let rest := s.drop alt.data.length
    let digits := rest.takeWhile isDigitC
    some (alt, if digits.isEmpty then none else some (digitsToNat digits))

/-- Embedding of _stitches_consumed_per_one. -/
def _stitches_consumed_per_one (op_str : String) : Int :=
  let s := lowerStr op_str
  if ["yo", "m1", "m1l", "m1r", "m1p", "sm", "pm"].contains s then 0
  else if ["k2tog", "ssk", "p2tog", "ssp"].contains s then 2
  else if ["sk2p", "s2kp", "k3tog", "p3tog", "cdd"].contains s then 3
  else if ["kfb", "pfb"].contains s then 1
  else 1

/-- Embedding of _op_type_from_str. -/
def _op_type_from_str (s : String) : OperationType :=
  let mapping : List (String × OperationType) :=
    [ ("k", OperationType.KNIT), ("p", OperationType.PURL),
      ("sl", OperationType.SLIP), ("sl1", OperationType.SLIP),
      ("sm", OperationType.SLIP), ("pm", OperationType.SLIP),
      ("k2tog", OperationType.K2TOG), ("ssk", OperationType.SSK),
      ("p2tog", OperationType.P2TOG), ("ssp", OperationType.SSP),
      ("sk2p", OperationType.SK2P), ("s2kp", OperationType.S2KP),
      ("k3tog", OperationType.K3TOG), ("p3tog", OperationType.P3TOG),
      ("cdd", OperationType.SK2P), ("yo", OperationType.YO),
      ("m1", OperationType.M1), ("m1l", OperationType.M1L),
      ("m1r", OperationType.M1R), ("m1p", OperationType.M1),
      ("kfb", OperationType.KFB), ("pfb", OperationType.KFB),
      ("bo", OperationType.BIND_OFF), ("co", OperationType.CAST_ON) ]
  match mapping.find? (fun p => p.1 = lowerStr s) with
  | some p => p.2
  | none => OperationType.UNKNOWN

/-- Embedding of parse_stitch.  The two count re-assignments for k, p, sl
and bo, co in the source recompute the value the count variable already
holds, so they are not repeated here. -/
def parse_stitch (token : String) : Option Operation :=
  let token := pstrip (rstripCommas (pstrip token))
  if token.isEmpty then none
  else
    let token := aliasFold token
    match stitchMatchAt (pstrip token).data with
    | none => none
    | some (op_str, cnt) =>
      let count : Int := match cnt with | some n => (n : Int) | none => 1
      let effect := stitchEffectsGet op_str
      let consumed := _stitches_consumed_per_one op_str
      some { raw := token, op_type := (_op_type_from_str op_str),
             count := count, count_effect := effect, stitches_consumed := consumed }

/-- Matcher for _REPEAT_BLOCK_PATTERN.  Captures: the inner text between
the stars, the optional fixed count (group 2) and the optional
until-remain count (group 3). -/
def repeatBlockMch : Mch (List Char × Option Nat × Option Nat) :=
  mbind (mchar '*') (fun _ =>
  mbind (mplusP (fun c => c ≠ '*')) (fun inner =>
  mbind (mchar '*') (fun _ =>
  mbind mws0 (fun _ =>
  mbind (moptSkip (mskip (moptSkip (mchar ','))
    (mskip mws0 (mskip (mlitCI ("repeat")) mws1)))) (fun _ =>
  mbind
    (malt
      (mbind mdigits (fun d => mskip mws0 (mskip (mlitCI ("times"))
        (mpure (some (digitsToNat d), (none : Option Nat))))))
      (malt
        (mskip (mlitCI ("to")) (mskip mws1 (mskip (mlitCI ("end"))
          (mpure ((none : Option Nat), (none : Option Nat))))))
        (malt
          (mskip (mlitCI ("across"))
            (mpure ((none : Option Nat), (none : Option Nat))))
          (malt
            (mskip (mlitCI ("until")) (mskip mws1 (mbind mdigits (fun d =>
              mskip mws1 (mskip (mlitCI ("st")) (mskip (moptSkip (mlitCI ("s")))
                (mskip mws1 (mskip (mlitCI ("remain"))
                  (mpure ((none : Option Nat), some (digitsToNat d)))))))))))
            (mpure ((none : Option Nat), (none : Option Nat)))))))
    (fun groups => mpure (inner, groups)))))))

/-- Embedding of the re.split on a comma plus whitespace or a whitespace
run used by parse_instruction_segment; empty pieces between adjacent
separators are kept, as re.split does. -/
def pySplitCommaWsGo (acc : List Char) (inSep : Bool) : List Char → List String
  | [] => [String.mk acc.reverse]
  | c :: t =>
    if inSep then
      if isSpaceC c then pySplitCommaWsGo [] true t
      else if c = ',' then "" :: pySplitCommaWsGo [] true t
      else pySplitCommaWsGo [c] false t
    else
      if c = ',' ∨ isSpaceC c then
        String.mk acc.reverse :: pySplitCommaWsGo [] true t
      else pySplitCommaWsGo (c :: acc) false t

def pySplitCommaWs (s : String) : List String :=
  pySplitCommaWsGo [] false s.data

/-- The merged raw text when a bare count follows k or p:
the Python expression f-string of raw with digits stripped plus n,
stripped, falling back to the original raw when empty. -/
def mergeRaw (raw : String) (n : Nat) : String :=
  let r := pstrip (String.mk ((rstripDigits raw).data ++ (toString n).data))
  if r.isEmpty then raw else r

/-- A placeholder Operation used only as the (unreachable) default of
getLastD below; the call sites guard on a nonempty list. -/
def dummyOp : Operation := { raw := "", op_type := OperationType.UNKNOWN }

/-- The unparsable-token fallback of the segment loop: the marker
reinterpretation of a trailing sl, otherwise a silent drop. -/
def markerHandle (tok : String) (ops : List Operation) : List Operation :=
  if lowerStr tok = "marker" ∧ ¬ops.isEmpty
      ∧ (["sl", "slip"].contains (lowerStr (ops.getLastD dummyOp).raw)) then
    let lastOp := ops.getLastD dummyOp
    ops.dropLast ++
      [{ lastOp with
         raw := "sm"
         count_effect := (stitchEffectsGet ("sm"))
         stitches_consumed := (_stitches_consumed_per_one ("sm")) }]
  else ops

/-- The token loop of parse_instruction_segment, with the one-token
lookahead for bare counts after k and p and the marker reinterpretation
of a trailing sl. -/
def segLoop : List String → List Operation → List Operation
  | [], ops => ops
  | [token], ops =>
    let tok := rstripCommas (pstrip token)
    if tok.isEmpty then ops
    else
      match parse_stitch tok with
      | some op => ops ++ [op]
      | none => markerHandle tok ops
  | token :: next :: rest2, ops =>
    let tok := rstripCommas (pstrip token)
    if tok.isEmpty then segLoop (next :: rest2) ops
    else
      match parse_stitch tok with
      | some op =>
        if (op.op_type = OperationType.KNIT ∨ op.op_type = OperationType.PURL) then
          let next_tok := rstripCommas (pstrip next)
          if pyIsDigit next_tok then
            let n := digitsToNat next_tok.data
            let op2 :=
              if n ≥ 1 then
                { op with count := (n : Int), raw := (mergeRaw op.raw n) }
              else op
            segLoop rest2 (ops ++ [op2])
          else segLoop (next :: rest2) (ops ++ [op])
        else segLoop (next :: rest2) (ops ++ [op])
      | none => segLoop (next :: rest2) (markerHandle tok ops)

/-- Embedding of parse_instruction_segment. -/
def parse_instruction_segment (text : String) : List Operation :=
  segLoop (pySplitCommaWs (pstrip text)) []

/-- Embedding of parse_repeat_block: re-derives the match from the text it
is given (parse_row_instructions passes each group(0)). -/
def parse_repeat_block (text : String) : Option RepeatBlock :=
  match msearch repeatBlockMch text.data with
  | none => none
  | some (inner, g2, g3) =>
    let ops := parse_instruction_segment (pstrip (String.mk inner))
    if ops.isEmpty then none
    else
      match g2, g3 with
      | some n, _ =>
        some { operations := ops, raw := text, repeat_count := some (n : Int) }
      | none, some k =>
        some { operations := ops, raw := text, until_sts_remain := some (k : Int) }
      | none, none =>
        some { operations := ops, raw := text, repeat_to_end := true }

def workEvenMch : Mch Unit :=
  mskip (mlitCI ("work")) (mskip mws1 (mlitCI ("even")))

/-- Embedding of parse_row_instructions. -/
def parse_row_instructions (text : String) : List Operation × List RepeatBlock :=
  let text := pstrip text
  if msearchB workEvenMch text.data then
    ([{ raw := "work even", op_type := OperationType.WORK_EVEN, count := 1,
        count_effect := 0, stitches_consumed := 0 }], [])
  else
    let mts := mfindIter repeatBlockMch (text.data.length + 1) text.data
    let folded := mts.foldl (fun (st : List RepeatBlock × String) mt =>
      match parse_repeat_block (String.mk mt.1) with
      | some block => (st.1 ++ [block],
          replaceFirst st.2 (String.mk mt.1) (" __REPEAT__ "))
      | none => st) ([], text)
    let parts := pySplit folded.2 ("__REPEAT__")
    (parts.flatMap (fun part => parse_instruction_segment part), folded.1)

/-! ## Pattern parser (backend/parser/pattern_parser.py) -/

/-- Synthetic size labels SizeN for indices from a to b-1 (Python
f"Size{i + 1}" over range(a, b)). -/
def genLabels (a b : Nat) : List String :=
  (List.range (b - a)).map (fun j => "Size" ++ toString (a + j + 1))

/-- The positional mapping loop of map_sizes_to_counts: for each count at
index i with i below the number of labels, set result[sizes[i]]. -/
def mscBuild (acc : Dict) : List String → List Int → Dict
  | _, [] => acc
  | [], _ :: _ => acc
  | s :: ss, c :: cs => mscBuild (dictSet acc s c) ss cs

/-- Embedding of map_sizes_to_counts.  The Python function mutates the
sizes list it receives: when it is nonempty and shorter than counts it
appends synthetic SizeN labels in place (the empty case rebinds a local
name only, leaving the callers list untouched).  The first component of
the result is the callers list after the call; the second is the
returned dict. -/
def map_sizes_to_counts (sizes : List String) (counts : List Int) :
    List String × Dict :=
  if sizes.isEmpty then
    (sizes, mscBuild [] (genLabels 0 counts.length) counts)
  else
    let sizes2 :=
      if sizes.length < counts.length then
        sizes ++ genLabels sizes.length counts.length
      else sizes
    (sizes2, mscBuild [] sizes2 counts)

/-- Matcher for the search of sizes?[ws]*: (the classifier only). -/
def sizesKeyMch : Mch Unit :=
  mskip (mlitCI ("size")) (mskip (moptSkip (mlitCI ("s")))
    (mskip mws0 (mmap (fun _ => ()) (mchar ':'))))

def gaugeKeyMch : Mch Unit :=
  mskip (mlitCI ("gauge")) (mskip mws0 (mmap (fun _ => ()) (mchar ':')))

def materialsKeyMch : Mch Unit :=
  mskip (mlitCI ("material")) (mskip (moptSkip (mlitCI ("s")))
    (mskip mws0 (mmap (fun _ => ()) (mchar ':'))))

def measurementsKeyMch : Mch Unit :=
  mskip (mlitCI ("finished")) (mskip mws1 (mskip (mlitCI ("measurement"))
    (mskip (moptSkip (mlitCI ("s"))) (mskip mws0 (mmap (fun _ => ()) (mchar ':'))))))

def abbreviationsKeyMch : Mch Unit :=
  mskip (mlitCI ("abbreviation")) (mskip (moptSkip (mlitCI ("s")))
    (mskip mws0 (mmap (fun _ => ()) (mchar ':'))))

def notesKeyMch : Mch Unit :=
  mskip (mlitCI ("note")) (mskip (moptSkip (mlitCI ("s")))
    (mskip mws0 (mmap (fun _ => ()) (mchar ':'))))

/-- Matcher for _CO_PATTERN: (CO | Cast[ws]*on)[ws]+. -/
def coKeyMch : Mch Unit :=
  mskip
    (malt (mlitCI ("co"))
      (mskip (mlitCI ("cast")) (mskip mws0 (mlitCI ("on")))))
    (mmap (fun _ => ()) mws1)

/-- Matcher for _WORK_UNTIL_PATTERN:
work[ws]+(as[ws]+above | as[ws]+established | even)[ws]+until. -/
def workUntilMch : Mch Unit :=
  mskip (mlitCI ("work")) (mskip mws1 (mskip
    (malt (mskip (mlitCI ("as")) (mskip mws1 (mlitCI ("above"))))
      (malt (mskip (mlitCI ("as")) (mskip mws1 (mlitCI ("established"))))
        (mlitCI ("even"))))
    (mskip mws1 (mlitCI ("until")))))

def isColonDash (c : Char) : Bool := c = ':' || c = '-' || c = '–' || c = '—'

def isUpperAZ (c : Char) : Bool := 'A' ≤ c && c ≤ 'Z'

def isAsciiLetter (c : Char) : Bool :=
  ('A' ≤ c && c ≤ 'Z') || ('a' ≤ c && c ≤ 'z')

/-- The common tail of _ROW_PATTERN and _NEXT_ROW_PATTERN after the row
keyword: [ws]*\.?[ws]*(digits)[ws]*(\(([RW]S)\))?[ws]*[:\-–—]?[ws]*(.*),
capturing the row number, the optional side letters and the instruction
tail. -/
def rowTailMch : Mch (Nat × Option (List Char) × List Char) :=
  mbind mws0 (fun _ =>
  mbind (moptSkip (mchar '.')) (fun _ =>
  mbind mws0 (fun _ =>
  mbind mdigits (fun num =>
  mbind mws0 (fun _ =>
  mbind
    (malt
      (mbind (mchar '(') (fun _ =>
        mbind (mcharP (fun c => ciEq c 'r' || ciEq c 'w')) (fun c1 =>
        mbind (mcharP (fun c => ciEq c 's')) (fun c2 =>
        mbind (mchar ')') (fun _ => mpure (some [c1, c2]))))))
      (mpure (none : Option (List Char))))
    (fun side =>
  mbind mws0 (fun _ =>
  mbind (moptSkip (mcharP isColonDash)) (fun _ =>
  mbind mws0 (fun _ =>
  mbind mAllRest (fun rest =>
  mpure (digitsToNat num, side, rest)))))))))))

/-- Matcher for _ROW_PATTERN: (Row | Rnd | Round) then the row tail. -/
def rowMch : Mch (Nat × Option (List Char) × List Char) :=
  mskip (malt (mlitCI ("row")) (malt (mlitCI ("rnd")) (mlitCI ("round")))) rowTailMch

/-- Matcher for _NEXT_ROW_PATTERN: Next[ws]+(row | rnd | round) then the
row tail. -/
def nextRowMch : Mch (Nat × Option (List Char) × List Char) :=
  mskip (mlitCI ("next")) (mskip mws1
    (mskip (malt (mlitCI ("row")) (malt (mlitCI ("rnd")) (mlitCI ("round")))) rowTailMch))

/-- Matcher for _SECTION_PATTERN (case-sensitive):
((#|##|###)[ws]+ | =+[ws]*)? ([A-Z][A-Za-z ws]+) ([ws]*=+)? [ws]* $,
capturing group 1. -/
def sectionMch : Mch (List Char) :=
  mbind
    (moptSkip (malt
      (mskip (malt (mlitCI ("###")) (malt (mlitCI ("##")) (mlitCI ("#")))) mws1)
      (mskip (mplusP (fun c => c = '=')) mws0)))
    (fun _ =>
  mbind (mcharP isUpperAZ) (fun c0 =>
  mbind (mplusP (fun c => isAsciiLetter c || isSpaceC c)) (fun body =>
  mbind (moptSkip (mskip mws0 (mplusP (fun c => c = '=')))) (fun _ =>
  mbind mws0 (fun _ =>
  mbind mEnd (fun _ =>
  mpure (c0 :: body)))))))

/-- Python is_round detection for a row line. -/
def isRoundLine (line : String) : Bool :=
  let lw := lowerStr line
  ("rnd").data.isPrefixOf lw.data || ("round").data.isPrefixOf lw.data
    || listContainsSub (lw.data.take 10) ("rnd").data

/-- The section-keyword exclusion list checked against the heading name. -/
def sectionKeywords : List String := ["row", "rnd", "round", "repeat", "next"]

/-- The per-line step of parse_pattern.  State: the pattern being built,
the closed sections in order, and the current section.  Returns their
updated versions. -/
def parseLine (i : Nat) (line : String) (p : Pattern) (done : List Section)
    (cur : Section) : Pattern × List Section × Section :=
  if msearchB sizesKeyMch line.data then
    ({ p with sizes := (parse_size_definitions line) }, done, cur)
  else if msearchB gaugeKeyMch line.data then
    ({ p with gauge := some line }, done, cur)
  else if msearchB materialsKeyMch line.data then
    ({ p with materials := some line }, done, cur)
  else if msearchB measurementsKeyMch line.data then
    ({ p with finished_measurements := some line }, done, cur)
  else if msearchB abbreviationsKeyMch line.data then
    ({ p with abbreviations := some line }, done, cur)
  else if msearchB notesKeyMch line.data ∧ cur.rows.isEmpty then
    ({ p with notes := some line }, done, cur)
  else if msearchB coKeyMch line.data then
    let counts := parse_cast_on_line line
    if counts.isEmpty then (p, done, cur)
    else if ¬p.cast_on_counts.isEmpty then
      match counts with
      | [c] =>
        let extra_row : Row :=
          { raw_text := line, line_number := some i, cast_on_extra := some c }
        (p, done, { cur with rows := cur.rows ++ [extra_row] })
      | _ => (p, done, cur)
    else
      let counts :=
        match counts with
        | c0 :: c1 :: restc =>
          if c0 < 20 ∧ (c1 :: restc).all (fun c => decide (c ≥ 20)) then c1 :: restc
          else c0 :: c1 :: restc
        | other => other
      let p := if p.sizes.isEmpty then { p with sizes := (genLabels 0 counts.length) } else p
      let n_sizes := p.sizes.length
      let counts :=
        if counts.length > n_sizes then counts.drop (counts.length - n_sizes)
        else counts
      let msc := map_sizes_to_counts p.sizes counts
      let p := { p with sizes := msc.1, cast_on_counts := msc.2 }
      let co_row : Row :=
        { number := some 0, raw_text := line, line_number := some i,
          expected_sts := some msc.2, calculated_sts := some msc.2 }
      (p, done, { cur with rows := cur.rows ++ [co_row] })
  else
    let secM := mmatchQ sectionMch line
    let rowM := mmatchQ rowMch line
    let nextM := mmatchQ nextRowMch line
    let sectionTaken : Option String :=
      match secM, rowM, nextM with
      | some cap, none, none =>
        let name := pstrip (String.mk cap)
        if name.data.length > 3
            ∧ ¬(sectionKeywords.any (fun kw => strContains (lowerStr name) kw)) then
          some name
        else none
      | _, _, _ => none
    match sectionTaken with
    | some name => (p, done ++ [cur], { name := name })
    | none =>
      if msearchB workUntilMch line.data then
        let row : Row :=
          { raw_text := line, line_number := some i, is_repeat_ref := true,
            segment_label := some line }
        (p, done, { cur with rows := cur.rows ++ [row] })
      else
        match (rowM <|> nextM) with
        | some (row_num, sideCap, instr) =>
          let side := sideCap.map (fun l => String.mk (l.map Char.toUpper))
          let instruction_text := pstrip (String.mk instr)
          let stated := extract_stated_stitch_count instruction_text
          let statedTruthy : Bool :=
            match stated with
            | some xs => !xs.isEmpty
            | none => false
          let pe : Pattern × Option Dict :=
            if statedTruthy && !p.sizes.isEmpty then
              let msc := map_sizes_to_counts p.sizes (stated.getD [])
              ({ p with sizes := msc.1 }, some msc.2)
            else if statedTruthy = true then
              (p, some (dictOfPairs (((stated.getD []).enum).map
                (fun pr => ("Size" ++ toString (pr.1 + 1), pr.2)))))
            else (p, none)
          let pr := parse_row_instructions instruction_text
          let row : Row :=
            { number := some row_num, raw_text := line, line_number := some i,
              side := side, is_round := (isRoundLine line), operations := pr.1,
              repeat_blocks := pr.2, expected_sts := pe.2 }
          (pe.1, done, { cur with rows := cur.rows ++ [row] })
        | none => (p, done, cur)

/-- The line loop of parse_pattern; i is the 1-based number of the line
at the head of the list (Python increments i before processing, so the
stored line_number equals this value). -/
def parseLines : List String → Nat → Pattern → List Section → Section →
    Pattern × List Section × Section
  | [], _, p, done, cur => (p, done, cur)
  | line0 :: rest, i, p, done, cur =>
    let line := pstrip line0
    if line.isEmpty then parseLines rest (i + 1) p done cur
    else
      let st := parseLine i line p done cur
      parseLines rest (i + 1) st.1 st.2.1 st.2.2

/-- Embedding of parse_pattern. -/
def parse_pattern (text : String) : Pattern :=
  let lines := pySplit text ("\n")
  let st := parseLines lines 1 { raw_text := text } [] { name := "Main" }
  let secs := (st.2.1 ++ [st.2.2]).filter
    (fun s => !s.rows.isEmpty || s.notes ≠ "")
  { st.1 with sections := if secs.isEmpty then [{ name := "Main" }] else secs }

/-! ## Document-wide assertion extraction (size_parser.py) -/

/-- A stitch-count assertion record: line number, counts, raw fragment. -/
structure ARec where
  line : Nat
  counts : List Int
  raw_text : String
  deriving DecidableEq, Repr

/-- st(?:s|itches)? with engine preference sts, stitches, st. -/
def stWordMch : Mch Unit :=
  mskip (mlitCI ("st")) (malt (mlitCI ("s")) (malt (mlitCI ("itches")) (mpure ())))

/-- First alternative of _ASSERTION_BRACKET:
[ [ws]* ([digits ws ,]+) [ws]+ st-word .? ([ws]+ [^ ] ]*)? ]. -/
def bracketAlt1 : Mch (List Char) :=
  mskip (mchar '[') (mskip mws0 (mbind (mplusP isNumWsComma) (fun cap =>
    mskip mws1 (mskip stWordMch (mskip (moptSkip (mchar '.'))
      (mskip (moptSkip (mskip mws1 (mstarP (fun c => c ≠ ']'))))
        (mskip (mchar ']') (mpure cap))))))))

/-- Second alternative of _ASSERTION_BRACKET:
[ [ws]* ([digits ws ,]+) [ws]* ] [ws]* st-word .?. -/
def bracketAlt2 : Mch (List Char) :=
  mskip (mchar '[') (mskip mws0 (mbind (mplusP isNumWsComma) (fun cap =>
    mskip mws0 (mskip (mchar ']') (mskip mws0 (mskip stWordMch
      (mskip (moptSkip (mchar '.')) (mpure cap))))))))

def bracketAssertMch : Mch (List Char) := malt bracketAlt1 bracketAlt2

/-- _ASSERTION_PAREN: ( [ws]* ([digits ws ,]+) [ws]* ) [ws]* (st-word | st.). -/
def parenAssertMch : Mch (List Char) :=
  mskip (mchar '(') (mskip mws0 (mbind (mplusP isNumWsComma) (fun cap =>
    mskip mws0 (mskip (mchar ')') (mskip mws0 (mskip
      (malt stWordMch (mskip (mlitCI ("st")) (mmap (fun _ => ()) (mchar '.'))))
      (mpure cap)))))))

/-- _ASSERTION_DASH: dash [ws]* ([digits ws ,]+) [ws]* st(?:s|itches)?
[ws]* .? [ws]* $. -/
def dashAssertMch : Mch (List Char) :=
  mskip (mcharP isDashC) (mskip mws0 (mbind (mplusP isNumWsComma) (fun cap =>
    mskip mws0 (mskip stWordMch (mskip mws0 (mskip (moptSkip (mchar '.'))
      (mskip mws0 (mskip mEnd (mpure cap)))))))))

/-- Python re.search for increased?|decreased? on a fragment: equivalent
to a case-insensitive substring test for increase or decrease (the final
d? never constrains search success). -/
def hasIncDec (raw : String) : Bool :=
  ciContains raw ("increase") || ciContains raw ("decrease")

/-- The bracket finditer loop of extract_all_stitch_assertions: the
increase exclusion precedes the dedup test, the key is recorded before
the counts test, and empty count lists are dropped. -/
def procBracket (n : Nat) : List (List Char × List Char) →
    List (Nat × String) → List ARec × List (Nat × String)
  | [], seen => ([], seen)
  | (g0, cap) :: rest, seen =>
    let raw := String.mk g0
    if hasIncDec raw then procBracket n rest seen
    else if seen.contains (n, raw) then procBracket n rest seen
    else
      let seen := seen ++ [(n, raw)]
      let numsS := pstrip (String.mk cap)
      let counts := if numsS.isEmpty then [] else parse_multi_size_values numsS
      let r := procBracket n rest seen
      (if counts.isEmpty then r.1 else { line := n, counts := counts, raw_text := raw } :: r.1,
        r.2)

/-- The paren finditer loop: dedup test first, then the increase
exclusion, then the key is recorded. -/
def procParen (n : Nat) : List (List Char × List Char) →
    List (Nat × String) → List ARec × List (Nat × String)
  | [], seen => ([], seen)
  | (g0, cap) :: rest, seen =>
    let raw := String.mk g0
    if seen.contains (n, raw) then procParen n rest seen
    else if hasIncDec raw then procParen n rest seen
    else
      let seen := seen ++ [(n, raw)]
      let counts := parse_multi_size_values (String.mk cap)
      let r := procParen n rest seen
      (if counts.isEmpty then r.1 else { line := n, counts := counts, raw_text := raw } :: r.1,
        r.2)

/-- The single dash search at the end of the per-line scan. -/
def procDash (n : Nat) (stripped : String) (seen : List (Nat × String)) :
    List ARec × List (Nat × String) :=
  match msearchSplit dashAssertMch stripped.data with
  | none => ([], seen)
  | some (pre, cap, _) =>
    let raw := String.mk (stripped.data.drop pre.length)
    if seen.contains (n, raw) then ([], seen)
    else
      let seen := seen ++ [(n, raw)]
      let counts := parse_multi_size_values (String.mk cap)
      (if counts.isEmpty then [] else [{ line := n, counts := counts, raw_text := raw }],
        seen)

/-- One line of extract_all_stitch_assertions. -/
def lineAsserts (n : Nat) (stripped : String) (seen : List (Nat × String)) :
    List ARec × List (Nat × String) :=
  let b := procBracket n
    (mfindIter bracketAssertMch (stripped.data.length + 1) stripped.data) seen
  let p := procParen n
    (mfindIter parenAssertMch (stripped.data.length + 1) stripped.data) b.2
  let d := procDash n stripped p.2
  (b.1 ++ p.1 ++ d.1, d.2)

def extractLinesGo : List String → Nat → List (Nat × String) → List ARec
  | [], _, _ => []
  | line :: rest, n, seen =>
    let stripped := pstrip line
    if stripped.isEmpty then extractLinesGo rest (n + 1) seen
    else if msearchB remainMch stripped.data then extractLinesGo rest (n + 1) seen
    else
      let st := lineAsserts n stripped seen
      st.1 ++ extractLinesGo rest (n + 1) st.2

/-- Embedding of extract_all_stitch_assertions. -/
def extract_all_stitch_assertions (text : String) : List ARec :=
  extractLinesGo (pySplit text ("\n")) 1 []

/-! ## Document assertion check and validate_pattern assembly -/

/-- An entry of the row_line_sts list: (line_number, row, copy of the
calculated dict). -/
structure LEntry where
  ln : Nat
  row : Row
  sts : Dict
  deriving DecidableEq, Repr

/-- Rows with a line number and a truthy calculated_sts, in document
order. -/
def collectRowLineSts (p : Pattern) : List LEntry :=
  (p.sections.flatMap (fun s => s.rows)).filterMap (fun row =>
    match row.line_number, row.calculated_sts with
    | some ln, some c =>
      if c.isEmpty then none else some { ln := ln, row := row, sts := c }
    | _, _ => none)

/-- Stable insertion keeping earlier entries before equal keys, so that
sortByLine below is exactly the stable Python list.sort by line. -/
def insertByLine (e : LEntry) : List LEntry → List LEntry
  | [] => [e]
  | f :: fs => if e.ln ≤ f.ln then e :: f :: fs else f :: insertByLine e fs

def sortByLine : List LEntry → List LEntry
  | [] => []
  | e :: es => insertByLine e (sortByLine es)

/-- The applied-row scan of _check_document_stitch_assertions, with the
break on the first entry past the assertion line. -/
def scanApplied (l : Nat) (acc : Option LEntry) : List LEntry → Option LEntry
  | [] => acc
  | e :: rest => if e.ln ≤ l then scanApplied l (some e) rest else acc

/-- The per-size comparison loop for one assertion. -/
def assertSizeErrors (sizes : List String) (applied : LEntry) (stated : Dict)
    (a : ARec) : List ErrorRec :=
  sizes.filterMap (fun size =>
    match dictGet? applied.sts size, dictGet? stated size with
    | some calcv, some exp =>
      if calcv ≠ exp then
        let row_label :=
          match applied.row.number with
          | some n => "Row " ++ toString n ++ " (pattern states count at line "
              ++ toString a.line ++ ")"
          | none => "Line " ++ toString a.line
        let rec1 : ErrorRec :=
          { type := "stitch_count"
            size := some size
            row := applied.row.number
            row_label := some row_label
            message := "Stated count in pattern (" ++ a.raw_text ++ ") is "
              ++ toString exp ++ " sts but computed count at this point is "
              ++ toString calcv ++ " sts"
            raw_text := some a.raw_text
            line := some a.line }
        some rec1
      else none
    | _, _ => none)

/-- The errors one assertion record contributes, as the source loop body:
applied-row selection over the sorted list, the same-line skip, the
count-to-size mapping and the per-size loop. -/
def errorsForAssertion (sizes : List String) (sorted : List LEntry)
    (a : ARec) : List ErrorRec :=
  match scanApplied a.line none sorted with
  | none => []
  | some applied =>
    if applied.row.line_number = some a.line then []
    else
      let stated? : Option Dict :=
        if a.counts.length = sizes.length then
          some (dictOfPairs (sizes.zip a.counts))
        else if a.counts.length = 1 then
          some (dictOfPairs (sizes.map (fun s => (s, a.counts.headD 0))))
        else none
      match stated? with
      | none => []
      | some stated => assertSizeErrors sizes applied stated a

/-- Embedding of _check_document_stitch_assertions. -/
def _check_document_stitch_assertions (p : Pattern) : Pattern :=
  if p.sizes.isEmpty then p
  else
    let sorted := sortByLine (collectRowLineSts p)
    let asserts := extract_all_stitch_assertions p.raw_text
    { p with errors := p.errors ++ asserts.flatMap (errorsForAssertion p.sizes sorted) }

/-- Embedding of validate_pattern: the defaulting of sizes and cast-on
counts, the per-size row pass, then the two cross-cutting checks. -/
def validate_pattern (pattern : Pattern) : Pattern :=
  _check_document_stitch_assertions (validatePatternCore pattern)

/-! ## Specification-side definitions used to state the claims -/

def flatRows (p : Pattern) : List Row := p.sections.flatMap (fun s => s.rows)

def hasWorkEven (row : Row) : Bool :=
  row.operations.any (fun op => op.op_type = OperationType.WORK_EVEN)

def rowFlatNet (row : Row) : Int :=
  (row.operations.map (fun op => op.total_effect)).sum

def rowAccounted (row : Row) : Int :=
  (row.operations.map (fun op => op.stitches_consumed * op.count)).sum

/-- The repeat-block fold of a row at a given starting count: net change,
final remaining, block errors, block warnings. -/
def rowBlocks (row : Row) (starting : Int) : Int × Int × List String × List String :=
  blocksLoop row.repeat_blocks (rowFlatNet row) (starting - rowAccounted row) [] []

/-- The net change of a row under the evaluation rules, at a given
starting count (flat operations plus the repeat-block contributions). -/
def rowNetChange (row : Row) (starting : Int) : Int := (rowBlocks row starting).1

/-- The per-row update of the running count that validate_pattern
actually performs for one size: Row 0 with a stated count resets the
count to it; repeat-reference, extra cast-on and work-even rows pass the
count through (plus the extra); ordinary rows add the net change and
clamp at zero. -/
def specStep (size : String) (c : Int) (row : Row) : Int :=
  match row.number, expectedLookup row size with
  | some 0, some v => v
  | _, _ =>
    if row.is_repeat_ref then c
    else
      match row.cast_on_extra with
      | some extra => c + extra
      | none =>
        if hasWorkEven row then c
        else max (c + rowNetChange row c) 0

/-- The running calculated counts along a row list for one size. -/
def specCalcList (size : String) (c : Int) : List Row → List Int
  | [] => []
  | r :: rs =>
    let c1 := specStep size c r
    c1 :: specCalcList size c1 rs

/-- Lookup of the calculated count of a row for one size. -/
def calcGet (size : String) (r : Row) : Option Int :=
  dictGet? ((r.calculated_sts).getD []) size

/-- The static content of a Row read by the evaluator (everything except
the calculated counts and the accumulated messages). -/
def rowStatic (r : Row) :
    Option Nat × Bool × Option Int × List Operation × List RepeatBlock × Option Dict :=
  (r.number, r.is_repeat_ref, r.cast_on_extra, r.operations, r.repeat_blocks,
    r.expected_sts)

/-- Claim-side selection of the applicable row for a document assertion:
the latest Row, in document order, whose source line is at or before the
assertion line — latest by line number, with the later row in document
order winning ties. -/
def latestAtOrBefore (l : Nat) : List LEntry → Option LEntry
  | [] => none
  | e :: rest =>
    match latestAtOrBefore l rest with
    | none => if e.ln ≤ l then some e else none
    | some r => if e.ln ≤ l ∧ r.ln < e.ln then some e else some r

/-- Claim-side per-assertion behaviour of the document check, worded from
the claim: select the applicable row from the document-order entry list,
skip when its own line equals the assertion line, zip the count list to
sizes when lengths agree, broadcast a singleton, skip otherwise, and emit
one error per mapped size whose calculated count differs. -/
def specAssertionErrors (sizes : List String) (entries : List LEntry)
    (a : ARec) : List ErrorRec :=
  match latestAtOrBefore a.line entries with
  | none => []
  | some applied =>
    if applied.row.line_number = some a.line then []
    else if a.counts.length = sizes.length then
      assertSizeErrors sizes applied (dictOfPairs (sizes.zip a.counts)) a
    else if a.counts.length = 1 then
      assertSizeErrors sizes applied
        (dictOfPairs (sizes.map (fun s => (s, a.counts.headD 0)))) a
    else []

/-! ## Concrete fixtures used by counterexamples and witnesses -/

def opBO1 : Operation :=
  { raw := "bo", op_type := OperationType.BIND_OFF, count := 1,
    count_effect := -1, stitches_consumed := 1 }

def opK2tog : Operation :=
  { raw := "k2tog", op_type := OperationType.K2TOG, count := 1,
    count_effect := -1, stitches_consumed := 2 }

def opYO : Operation :=
  { raw := "yo", op_type := OperationType.YO, count := 1,
    count_effect := 1, stitches_consumed := 0 }

def opWorkEven : Operation :=
  { raw := "work even", op_type := OperationType.WORK_EVEN, count := 1,
    count_effect := 0, stitches_consumed := 0 }

def opSM : Operation :=
  { raw := "sm", op_type := OperationType.SLIP, count := 1,
    count_effect := 0, stitches_consumed := 0 }

/-- A repeat-to-end block containing a single yo: it consumes nothing. -/
def yoToEndBlock : RepeatBlock :=
  { operations := [opYO], repeat_to_end := true, raw := "*yo* to end" }

/-- An until-2-remain block containing a single yo. -/
def yoUntilBlock : RepeatBlock :=
  { operations := [opYO], until_sts_remain := some 2, raw := "*yo* until 2 sts remain" }

/-- A repeat-to-end block of k2tog: consumes 2, nets -1 per repeat. -/
def k2togToEndBlock : RepeatBlock :=
  { operations := [opK2tog], repeat_to_end := true, raw := "*k2tog* to end" }

/-- A block of one sm as the tokenizer produces it. -/
def smBlock : RepeatBlock :=
  { operations := [opSM], repeat_to_end := true, raw := "*sm* to end" }

/-- A bind-off row used by the C1 counterexample. -/
def cexRowBO : Row :=
  { number := some 1, raw_text := "Row 1: bo", line_number := some 1,
    operations := [opBO1] }

/-- A one-size pattern whose single row binds off one stitch from a
zero-stitch cast-on: the clamp at zero separates the running count from
the plain cumulative sum. -/
def cexPatternC1 : Pattern :=
  { raw_text := "", sizes := ["S1"], cast_on_counts := [("S1", 0)],
    sections := [{ name := "Main", rows := [cexRowBO] }] }

/-- A work-even row bearing a stated count above the running count. -/
def cexRowWorkEven : Row :=
  { number := some 3, raw_text := "Row 3: work even (50 sts)",
    line_number := some 3, operations := [opWorkEven],
    expected_sts := some [("S1", 50)] }

/-- A k2tog row used by witnesses. -/
def witRowK2tog : Row :=
  { number := some 2, raw_text := "Row 2: k2tog", line_number := some 2,
    operations := [opK2tog] }

/-- A one-size pattern for the C1 witness. -/
def witPatternC1 : Pattern :=
  { raw_text := "", sizes := ["S1"], cast_on_counts := [("S1", 5)],
    sections := [{ name := "Main", rows := [witRowK2tog, cexRowWorkEven] }] }

/-- A row holding one repeat-to-end k2tog block, for the C4 witness. -/
def witRowBlockC4 : Row :=
  { number := some 4, raw_text := "Row 4: *k2tog* to end",
    line_number := some 4, repeat_blocks := [k2togToEndBlock] }

/-- A k2tog row with a stale stated count, for the C5 witness. -/
def witRowC5 : Row :=
  { number := some 2, raw_text := "Row 2: k2tog (10 sts)",
    line_number := some 2, operations := [opK2tog],
    expected_sts := some [("S1", 10)] }

/-- Input whose single row states fewer values than there are declared
sizes. -/
def c9Text : String := "Sizes: XS, S\nRow 1: k2tog (42 sts)"

/-- Input whose rows state more values than there are declared sizes. -/
def c10Text : String :=
  "Sizes: A, B\nRow 1: k2tog (40, 42, 44 sts)\nRow 2: p2tog (50, 52, 54 sts)"

/-- Document-order entries for every row that has a source line number,
as the claim for the document assertion check reads them. -/
def docLineEntries (p : Pattern) : List LEntry :=
  (flatRows p).filterMap (fun row =>
    row.line_number.map (fun ln =>
      { ln := ln, row := row, sts := (row.calculated_sts).getD [] }))

def witRowC6a : Row :=
  { number := some 0, raw_text := "CO 5 sts", line_number := some 1,
    calculated_sts := some [("S1", 5)] }

def witRowC6b : Row :=
  { number := some 1, raw_text := "Row 1: k", line_number := some 2,
    calculated_sts := some [("S1", 5)] }

/-- A pattern with validated rows and a document-wide assertion on its
own prose line, for the C6 witness. -/
def witPatternC6 : Pattern :=
  { raw_text := "CO 5 sts\nRow 1: k\n[6] sts", sizes := ["S1"],
    cast_on_counts := [("S1", 5)],
    sections := [{ name := "Main", rows := [witRowC6a, witRowC6b] }] }

/-! ## Theorems -/

/-- C2: the claim says parse_pattern returns a Pattern for every input
text without raising.  In the source, every Row construction site inside
parse_pattern passes the keyword argument line_number, and the extra
cast-on site also passes cast_on_extra, while the Row dataclass in
models/pattern.py declares neither field; the generated dataclass
constructor therefore raises TypeError on any line classified as a
cast-on, repeat-reference or row line.  This theorem records the
mismatch between the declared field list and the keyword arguments
used. -/
theorem C2_row_ctor_kwarg_mismatch :
    ("line_number" ∉ rowDataclassFields ∧ "cast_on_extra" ∉ rowDataclassFields)
    ∧ (∀ ks ∈ parsePatternRowKwargSites, "line_number" ∈ ks)
    ∧ "cast_on_extra" ∈ (parsePatternRowKwargSites.headD []) := by decide

/-- C3: the claim says a block that consumes 0 stitches per repeat in a
non-fixed mode evaluates to net 0 together with an infinite-loop error
message.  The code does terminate with net 0, but the early return when
consumed-per-repeat is 0 precedes every mode branch, so no message is
produced for either the repeat-to-end or the until-K mode; the two
infinite-loop message branches further down are unreachable. -/
theorem C3_zero_consumption_silent :
    _calculate_repeat_block yoToEndBlock 10 = (0, none)
    ∧ _calculate_repeat_block yoUntilBlock 10 = (0, none)
    ∧ yoToEndBlock.stitches_consumed_per_repeat = 0
    ∧ yoToEndBlock.repeat_to_end = true
    ∧ yoToEndBlock.repeat_count = none
    ∧ yoUntilBlock.until_sts_remain = some 2 := by decide

/-- C7: the claim says a recognized cast-on token parses to an Operation
with per-instance net effect +1 and stitches consumed 0.  The tokenizer
recognizes co and co8, but STITCH_EFFECTS has no co entry, so the effect
lookup falls back to 0, and the consumed-per-one helper falls through to
its default of 1: the parsed Operation carries effect 0 and consumed 1
instead. -/
theorem C7_cast_on_parses_zero_effect :
    parse_stitch ("co8")
      = some ⟨"co8", OperationType.CAST_ON, 8, 0, 1⟩
    ∧ parse_stitch ("co")
      = some ⟨"co", OperationType.CAST_ON, 1, 0, 1⟩
    ∧ STITCH_EFFECTS.find? (fun pr => pr.1 = "co") = none := by decide

/-- C8: the claim says consumed-per-repeat equals the sum over the
operations of stitches-consumed times count, with slip-marker and
place-marker contributing 0.  The method switches on op_type instead of
reading the stitches_consumed field; sm and pm are typed SLIP and fall
into the final else branch, contributing 1 per count, although the
tokenizer sets their stitches_consumed to 0 and the flat-operation path
of the evaluator consumes 0 for them. -/
theorem C8_marker_consumption_mismatch :
    parse_stitch ("sm") = some opSM
    ∧ opSM.stitches_consumed = 0
    ∧ smBlock.stitches_consumed_per_repeat = 1
    ∧ (smBlock.operations.map (fun op => op.total_consumed)).sum = 0 := by decide

/-- C1 counterexample: the claim equates the calculated count with the
cast-on count plus the cumulative net change.  A bind-off row over a
zero cast-on gives cumulative sum -1, but the evaluator clamps each row
result at 0 and stores 0. -/
theorem C1_counterexample :
    (flatRows (validate_pattern cexPatternC1)).map (calcGet "S1") = [some 0]
    ∧ cexRowBO.number = some 1
    ∧ cexRowBO.expected_sts = none
    ∧ dictGetD (validate_pattern cexPatternC1).cast_on_counts "S1" 0
        + rowNetChange cexRowBO 0 = -1 := by decide

/-- C5 counterexample: the claim demands, for any non-Row-0 row whose
expected_sts covers the size, a mismatch error whenever neither skip
rule applies and the computed ending differs from the stated count.  A
work-even row returns early before the reconciliation block, so a stated
count of 50 against a running count of 40 produces no error although
ending 40 differs from 50 and neither skip rule applies. -/
theorem C5_counterexample :
    calculate_row_stitches cexRowWorkEven 40 "S1" = (40, [], [])
    ∧ expectedLookup cexRowWorkEven "S1" = some 50
    ∧ cexRowWorkEven.number = some 3
    ∧ rowNetChange cexRowWorkEven 40 = 0
    ∧ ¬((50 : Int) = 40 ∧ (0 : Int) ≠ 0)
    ∧ ¬((0 : Int) = 0 ∧ (50 : Int) < 40 + 0)
    ∧ (40 : Int) + 0 ≠ 50 := by decide

theorem isPrefixOf_append_left (a b c : List Char) (h : a.isPrefixOf b = true) :
    a.isPrefixOf (b ++ c) = true := by
  rw [List.isPrefixOf_iff_prefix] at h ⊢
  exact h.trans (List.prefix_append b c)

theorem listContainsSub_nil (b : List Char) : listContainsSub b [] = true := by
  induction b with
  | nil => rfl
  | cons c t ih => simp [listContainsSub, List.isPrefixOf]

theorem listContainsSub_append_left (a b pat : List Char)
    (h : listContainsSub a pat = true) : listContainsSub (a ++ b) pat = true := by
  induction a with
  | nil =>
    rw [listContainsSub] at h
    have : pat = [] := by simpa using h
    subst this
    simpa using listContainsSub_nil b
  | cons c t ih =>
    rw [listContainsSub] at h
    rw [List.cons_append, listContainsSub]
    rcases Bool.or_eq_true_iff.mp h with h1 | h2
    · exact Bool.or_eq_true_iff.mpr (Or.inl (isPrefixOf_append_left _ _ _ h1))
    · exact Bool.or_eq_true_iff.mpr (Or.inr (ih h2))

theorem strContains_append_left (a b pat : String)
    (h : strContains a pat = true) : strContains (a ++ b) pat = true := by
  have hd : (a ++ b).data = a.data ++ b.data := String.data_append a b
  unfold strContains at h ⊢
  rw [hd]
  exact listContainsSub_append_left _ _ _ h

/-- The repeat-to-end divide warning always contains the phrase the
evaluator uses to classify it as a warning. -/
theorem msgRepeatToEndDiv_contains (a c r l : Int) :
    strContains (msgRepeatToEndDiv a c r l) ("does not divide evenly") = true := by
  unfold msgRepeatToEndDiv
  repeat apply strContains_append_left
  decide

/-- C4: for a repeat-to-end block with positive consumed-per-repeat C
evaluated with A available: the repeat count is the floor of A over C,
the net contribution is net-per-repeat times that, a does-not-divide
message is produced exactly when A mod C is nonzero, that message
contains the phrase that classifies it as a warning, and a row holding
only such a block ends at the clamped starting-plus-net count with the
message filed among the warnings and not the errors. -/
theorem C4_repeat_to_end (b : RepeatBlock) (A : Int)
    (h1 : b.repeat_count = none) (h2 : b.until_sts_remain = none)
    (h3 : b.repeat_to_end = true)
    (h4 : 0 < b.stitches_consumed_per_repeat) :
    _calculate_repeat_block b A =
      (b.net_stitches_per_repeat * (A.fdiv b.stitches_consumed_per_repeat),
        if A.fmod b.stitches_consumed_per_repeat = 0 then none
        else some (msgRepeatToEndDiv A b.stitches_consumed_per_repeat
          (A.fdiv b.stitches_consumed_per_repeat)
          (A.fmod b.stitches_consumed_per_repeat)))
    ∧ strContains (msgRepeatToEndDiv A b.stitches_consumed_per_repeat
        (A.fdiv b.stitches_consumed_per_repeat)
        (A.fmod b.stitches_consumed_per_repeat)) ("does not divide evenly") = true
    ∧ (∀ (row : Row) (s : Int) (size : String),
        row.is_repeat_ref = false → row.cast_on_extra = none →
        hasWorkEven row = false → row.expected_sts = none →
        row.repeat_blocks = [b] → A = s - rowAccounted row →
        calculate_row_stitches row s size =
          (max (s + rowFlatNet row
              + b.net_stitches_per_repeat * (A.fdiv b.stitches_consumed_per_repeat)) 0,
            [],
            if A.fmod b.stitches_consumed_per_repeat = 0 then []
            else [msgRepeatToEndDiv A b.stitches_consumed_per_repeat
              (A.fdiv b.stitches_consumed_per_repeat)
              (A.fmod b.stitches_consumed_per_repeat)])) := by
  have hc0 : ¬b.stitches_consumed_per_repeat = 0 := by omega
  have hblock : _calculate_repeat_block b A =
      (b.net_stitches_per_repeat * (A.fdiv b.stitches_consumed_per_repeat),
        if A.fmod b.stitches_consumed_per_repeat = 0 then none
        else some (msgRepeatToEndDiv A b.stitches_consumed_per_repeat
          (A.fdiv b.stitches_consumed_per_repeat)
          (A.fmod b.stitches_consumed_per_repeat))) := by
    rw [_calculate_repeat_block]
    simp only [hc0, if_false, h1, h2, h3, if_true]
    by_cases hlo : A.fmod b.stitches_consumed_per_repeat = 0
    · simp [hlo]
    · simp [hlo]
  refine ⟨hblock, msgRepeatToEndDiv_contains _ _ _ _, ?_⟩
  intro row s size hr hc hw he hb hA
  rw [calculate_row_stitches]
  simp only [hr, if_false]
  rw [hc]
  have hwe : (row.operations.any (fun op => op.op_type = OperationType.WORK_EVEN)) = false := hw
  simp only [hwe, Bool.false_eq_true, if_false]
  have hel : expectedLookup row size = none := by
    unfold expectedLookup
    rw [he]
  have hbl : blocksLoop row.repeat_blocks
      ((row.operations.map (fun op => op.total_effect)).sum)
      (s - (row.operations.map (fun op => op.stitches_consumed * op.count)).sum) [] []
      = (rowFlatNet row + b.net_stitches_per_repeat * (A.fdiv b.stitches_consumed_per_repeat),
         A - b.stitches_consumed_per_repeat * (A.fdiv b.stitches_consumed_per_repeat),
         [],
         if A.fmod b.stitches_consumed_per_repeat = 0 then []
         else [msgRepeatToEndDiv A b.stitches_consumed_per_repeat
           (A.fdiv b.stitches_consumed_per_repeat)
           (A.fmod b.stitches_consumed_per_repeat)]) := by
    rw [hb]
    rw [blocksLoop]
    have hAeq : s - (row.operations.map (fun op => op.stitches_consumed * op.count)).sum = A := by
      rw [hA]; rfl
    rw [hAeq, hblock]
    simp only [h1, h2, h3]
    have hgt : b.stitches_consumed_per_repeat > 0 := h4
    simp only [hgt, if_true]
    by_cases hlo : A.fmod b.stitches_consumed_per_repeat = 0
    · simp [hlo, blocksLoop, rowFlatNet, msgRepeatToEndDiv]
    · have : strContains (msgRepeatToEndDiv A b.stitches_consumed_per_repeat
          (A.fdiv b.stitches_consumed_per_repeat)
          (A.fmod b.stitches_consumed_per_repeat)) ("does not divide evenly") = true :=
        msgRepeatToEndDiv_contains _ _ _ _
      simp [hlo, blocksLoop, rowFlatNet, this]
  rw [hbl]
  by_cases hn0 : row.number = some 0
  · simp only [hn0, if_true, hel]
    by_cases hlo : A.fmod b.stitches_consumed_per_repeat = 0 <;> simp [hlo, add_assoc]
  · simp only [hn0, if_false, hel]
    by_cases hlo : A.fmod b.stitches_consumed_per_repeat = 0 <;> simp [hlo, add_assoc]

/-- Witness for C4 at a concrete block: one k2tog repeated to the end of
7 available stitches gives 3 repeats with 1 leftover. -/
theorem C4_witness :
    0 < k2togToEndBlock.stitches_consumed_per_repeat
    ∧ (_calculate_repeat_block k2togToEndBlock 7 =
        (k2togToEndBlock.net_stitches_per_repeat
            * ((7 : Int).fdiv k2togToEndBlock.stitches_consumed_per_repeat),
          if (7 : Int).fmod k2togToEndBlock.stitches_consumed_per_repeat = 0 then none
          else some (msgRepeatToEndDiv 7 k2togToEndBlock.stitches_consumed_per_repeat
            ((7 : Int).fdiv k2togToEndBlock.stitches_consumed_per_repeat)
            ((7 : Int).fmod k2togToEndBlock.stitches_consumed_per_repeat)))
      ∧ strContains (msgRepeatToEndDiv 7 k2togToEndBlock.stitches_consumed_per_repeat
          ((7 : Int).fdiv k2togToEndBlock.stitches_consumed_per_repeat)
          ((7 : Int).fmod k2togToEndBlock.stitches_consumed_per_repeat))
          ("does not divide evenly") = true
      ∧ (∀ (row : Row) (s : Int) (size : String),
          row.is_repeat_ref = false → row.cast_on_extra = none →
          hasWorkEven row = false → row.expected_sts = none →
          row.repeat_blocks = [k2togToEndBlock] → (7 : Int) = s - rowAccounted row →
          calculate_row_stitches row s size =
            (max (s + rowFlatNet row
                + k2togToEndBlock.net_stitches_per_repeat
                  * ((7 : Int).fdiv k2togToEndBlock.stitches_consumed_per_repeat)) 0,
              [],
              if (7 : Int).fmod k2togToEndBlock.stitches_consumed_per_repeat = 0 then []
              else [msgRepeatToEndDiv 7 k2togToEndBlock.stitches_consumed_per_repeat
                ((7 : Int).fdiv k2togToEndBlock.stitches_consumed_per_repeat)
                ((7 : Int).fmod k2togToEndBlock.stitches_consumed_per_repeat)])))
    ∧ calculate_row_stitches witRowBlockC4 7 "S1" = (4, [], [msgRepeatToEndDiv 7 2 3 1]) := by
  refine ⟨by decide, C4_repeat_to_end k2togToEndBlock 7 rfl rfl rfl (by decide), ?_⟩
  have h := (C4_repeat_to_end k2togToEndBlock 7 rfl rfl rfl (by decide)).2.2
    witRowBlockC4 7 ("S1") rfl rfl rfl rfl rfl (by decide)
  rw [h]
  decide

/-- C5 (amended): for a row other than Row 0 that is not a
repeat-reference, has no extra cast-on and no work-even operation, and
whose expected_sts covers the size: no mismatch error is appended when
the stated count equals the starting count with nonzero net change, none
when the net change is 0 and the stated count is below the computed
ending, and otherwise a mismatch error is appended exactly when the
computed ending differs from the stated count; repeat-block errors are
unaffected. -/
theorem C5_mismatch_rule (row : Row) (starting : Int) (size : String) (e : Int)
    (h1 : row.number ≠ some 0) (h2 : row.is_repeat_ref = false)
    (h3 : row.cast_on_extra = none) (h4 : hasWorkEven row = false)
    (h5 : expectedLookup row size = some e) :
    calculate_row_stitches row starting size =
      (max (starting + rowNetChange row starting) 0,
        (rowBlocks row starting).2.2.1 ++
          (if e = starting ∧ rowNetChange row starting ≠ 0 then []
           else if rowNetChange row starting = 0
               ∧ e < starting + rowNetChange row starting then []
           else if starting + rowNetChange row starting ≠ e then
             [mismatchMsg (starting + rowNetChange row starting)
               (rowNetChange row starting) e]
           else []),
        (rowBlocks row starting).2.2.2) := by
  rw [calculate_row_stitches]
  simp only [h2, Bool.false_eq_true, if_false, h3]
  have hwe : (row.operations.any (fun op => op.op_type = OperationType.WORK_EVEN)) = false := h4
  simp only [hwe, Bool.false_eq_true, if_false]
  simp only [if_neg h1, h5]
  by_cases c1 : e = starting ∧ rowNetChange row starting ≠ 0
  · rw [if_pos ?_, if_pos c1]
    · simp [rowBlocks, rowNetChange, rowFlatNet, rowAccounted]
    · unfold rowNetChange rowBlocks rowFlatNet rowAccounted at c1
      exact c1
  · rw [if_neg ?_, if_neg c1]
    swap
    · unfold rowNetChange rowBlocks rowFlatNet rowAccounted at c1
      exact c1
    by_cases c2 : rowNetChange row starting = 0
        ∧ e < starting + rowNetChange row starting
    · rw [if_pos ?_, if_pos c2]
      · simp [rowBlocks, rowNetChange, rowFlatNet, rowAccounted]
      · unfold rowNetChange rowBlocks rowFlatNet rowAccounted at c2
        exact c2
    · rw [if_neg ?_, if_neg c2]
      swap
      · unfold rowNetChange rowBlocks rowFlatNet rowAccounted at c2
        exact c2
      by_cases c3 : starting + rowNetChange row starting ≠ e
      · rw [if_pos ?_, if_pos c3]
        · simp [rowBlocks, rowNetChange, rowFlatNet, rowAccounted, mismatchMsg]
        · unfold rowNetChange rowBlocks rowFlatNet rowAccounted at c3
          exact c3
      · rw [if_neg ?_, if_neg c3]
        · simp [rowBlocks, rowNetChange, rowFlatNet, rowAccounted]
        · unfold rowNetChange rowBlocks rowFlatNet rowAccounted at c3
          exact c3

/-- Witness for C5 at a concrete row: a k2tog row starting from 5 with a
stated count of 10 yields the mismatch error. -/
theorem C5_witness :
    expectedLookup witRowC5 "S1" = some 10
    ∧ calculate_row_stitches witRowC5 5 "S1" =
      (max (5 + rowNetChange witRowC5 5) 0,
        (rowBlocks witRowC5 5).2.2.1 ++
          (if (10 : Int) = 5 ∧ rowNetChange witRowC5 5 ≠ 0 then []
           else if rowNetChange witRowC5 5 = 0
               ∧ (10 : Int) < 5 + rowNetChange witRowC5 5 then []
           else if 5 + rowNetChange witRowC5 5 ≠ (10 : Int) then
             [mismatchMsg (5 + rowNetChange witRowC5 5) (rowNetChange witRowC5 5) 10]
           else []),
        (rowBlocks witRowC5 5).2.2.2) :=
  ⟨by decide,
    C5_mismatch_rule witRowC5 5 ("S1") 10 (by decide) (by decide) (by decide)
      (by decide) (by decide)⟩

theorem dictKeys_dictSet_mem (d : Dict) (k : String) (v : Int)
    (h : k ∈ dictKeys d) : dictKeys (dictSet d k v) = dictKeys d := by
  induction d with
  | nil => simp [dictKeys] at h
  | cons p rest ih =>
    obtain ⟨k1, v1⟩ := p
    have hcons : dictKeys ((k1, v1) :: rest) = k1 :: dictKeys rest := rfl
    by_cases hk : k1 = k
    · rw [dictSet, if_pos hk]
      rfl
    · have hmem : k ∈ dictKeys rest := by
        rw [hcons] at h
        rcases List.mem_cons.mp h with h1 | h2
        · exact absurd h1.symm hk
        · exact h2
      rw [dictSet, if_neg hk, hcons]
      have : dictKeys ((k1, v1) :: dictSet rest k v) = k1 :: dictKeys (dictSet rest k v) := rfl
      rw [this, ih hmem]

theorem dictKeys_dictSet_not_mem (d : Dict) (k : String) (v : Int)
    (h : k ∉ dictKeys d) : dictKeys (dictSet d k v) = dictKeys d ++ [k] := by
  induction d with
  | nil => simp [dictSet, dictKeys]
  | cons p rest ih =>
    obtain ⟨k1, v1⟩ := p
    have hcons : dictKeys ((k1, v1) :: rest) = k1 :: dictKeys rest := rfl
    rw [hcons] at h
    have hk : ¬k1 = k := fun he => h (List.mem_cons.mpr (Or.inl he.symm))
    have hmem : k ∉ dictKeys rest := fun hm => h (List.mem_cons.mpr (Or.inr hm))
    rw [dictSet, if_neg hk, hcons]
    have : dictKeys ((k1, v1) :: dictSet rest k v) = k1 :: dictKeys (dictSet rest k v) := rfl
    rw [this, ih hmem]
    rfl

theorem mscBuild_keys : ∀ (ss : List String) (cs : List Int) (acc : Dict),
    (dictKeys acc ++ ss.take cs.length).Nodup →
    dictKeys (mscBuild acc ss cs) = dictKeys acc ++ ss.take cs.length := by
  intro ss
  induction ss with
  | nil =>
    intro cs acc _
    cases cs <;> simp [mscBuild]
  | cons s ss ih =>
    intro cs acc hnd
    cases cs with
    | nil => simp [mscBuild]
    | cons c cs =>
      rw [mscBuild]
      have hs : s ∉ dictKeys acc := by
        have h2 := hnd
        simp [List.nodup_append] at h2
        exact h2.2.2.1
      have hkeys : dictKeys (dictSet acc s c) = dictKeys acc ++ [s] :=
        dictKeys_dictSet_not_mem acc s c hs
      have hnd2 : (dictKeys (dictSet acc s c) ++ ss.take cs.length).Nodup := by
        rw [hkeys, List.append_assoc, List.singleton_append]
        simpa using hnd
      rw [ih cs (dictSet acc s c) hnd2, hkeys]
      rw [List.append_assoc, List.singleton_append]
      simp

theorem genLabels_length (a b : Nat) : (genLabels a b).length = b - a := by
  simp [genLabels]

/-- C9 counterexample: with two declared sizes and a one-value row
assertion, the parsed expected_sts has key set XS only, not the declared
size set. -/
theorem C9_counterexample :
    (parse_pattern c9Text).sizes = ["XS", "S"]
    ∧ (flatRows (parse_pattern c9Text)).map (fun r => r.expected_sts.map dictKeys)
        = [some ["XS"]]
    ∧ "S" ∈ (parse_pattern c9Text).sizes
    ∧ "S" ∉ (["XS"] : List String) := by decide

/-- C9 (amended): when a row assertion with k values is mapped against a
nonempty size list with distinct labels, the key list of the resulting
expected_sts equals the first k labels of the (possibly extended) size
list; it equals the whole size list exactly when k is at least the
number of declared sizes. -/
theorem C9_expected_keys (sizes : List String) (counts : List Int)
    (h1 : sizes ≠ []) (_h2 : counts ≠ [])
    (h3 : ((map_sizes_to_counts sizes counts).1).Nodup) :
    dictKeys (map_sizes_to_counts sizes counts).2
      = ((map_sizes_to_counts sizes counts).1).take counts.length
    ∧ (dictKeys (map_sizes_to_counts sizes counts).2
        = (map_sizes_to_counts sizes counts).1
       ↔ sizes.length ≤ counts.length) := by
  have hne : sizes.isEmpty = false := by
    cases sizes with
    | nil => exact absurd rfl h1
    | cons a l => rfl
  rw [map_sizes_to_counts] at h3 ⊢
  rw [hne] at h3 ⊢
  simp only [Bool.false_eq_true, if_false] at h3 ⊢
  set sizes2 := if sizes.length < counts.length then
      sizes ++ genLabels sizes.length counts.length
    else sizes with hs2
  have hlen2 : sizes2.length = max sizes.length counts.length := by
    rw [hs2]
    by_cases hlt : sizes.length < counts.length
    · simp [hlt, genLabels_length]
      omega
    · simp [hlt]
      omega
  have hkeys : dictKeys (mscBuild [] sizes2 counts) = sizes2.take counts.length := by
    have := mscBuild_keys sizes2 counts []
    simp only [dictKeys, List.map_nil, List.nil_append] at this
    exact this (h3.sublist (List.take_sublist _ _))
  refine ⟨hkeys, ?_⟩
  constructor
  · intro heq
    rw [hkeys] at heq
    have := congrArg List.length heq
    simp [List.length_take] at this
    omega
  · intro hle
    rw [hkeys]
    apply List.take_of_length_le
    omega

/-- Witness for C9 at the counterexample sizes: two distinct labels and a
single stated value give the key list XS and no key-set equality. -/
theorem C9_witness :
    (["XS", "S"] : List String) ≠ [] ∧ ([42] : List Int) ≠ []
    ∧ ((map_sizes_to_counts ["XS", "S"] [42]).1).Nodup
    ∧ (dictKeys (map_sizes_to_counts ["XS", "S"] [42]).2
        = ((map_sizes_to_counts ["XS", "S"] [42]).1).take ([42] : List Int).length
      ∧ (dictKeys (map_sizes_to_counts ["XS", "S"] [42]).2
          = (map_sizes_to_counts ["XS", "S"] [42]).1
         ↔ (["XS", "S"] : List String).length ≤ ([42] : List Int).length)) :=
  ⟨by decide, by decide, by decide,
    C9_expected_keys ["XS", "S"] [42] (by decide) (by decide) (by decide)⟩

/-- C10: map_sizes_to_counts extends the caller size list in place with
synthetic SizeN labels whenever the count list is longer, and through the
row-assertion call site this permanently extends the pattern size list:
parsing two declared sizes with three-value assertions yields sizes
A, B, Size3, row expected keys covering Size3, and the evaluator then
loops over the extended size list. -/
theorem C10_sizes_extension :
    (∀ (sizes : List String) (counts : List Int),
      sizes ≠ [] → sizes.length < counts.length →
      (map_sizes_to_counts sizes counts).1
        = sizes ++ genLabels sizes.length counts.length)
    ∧ (parse_pattern c10Text).sizes = ["A", "B", "Size3"]
    ∧ (flatRows (parse_pattern c10Text)).map (fun r => r.expected_sts.map dictKeys)
        = [some ["A", "B", "Size3"], some ["A", "B", "Size3"]]
    ∧ (validate_pattern (parse_pattern c10Text)).sizes = ["A", "B", "Size3"] := by
  refine ⟨?_, by decide, by decide, by decide⟩
  intro sizes counts h1 h2
  have hne : sizes.isEmpty = false := by
    cases sizes with
    | nil => exact absurd rfl h1
    | cons a l => rfl
  rw [map_sizes_to_counts, hne]
  simp [h2]

/-- Witness for C10 at concrete lists: two labels with three counts gain
the synthetic third label. -/
theorem C10_witness :
    (["A", "B"] : List String) ≠ []
    ∧ (["A", "B"] : List String).length < ([40, 42, 44] : List Int).length
    ∧ (map_sizes_to_counts ["A", "B"] [40, 42, 44]).1
        = ["A", "B"] ++ genLabels (["A", "B"] : List String).length
            ([40, 42, 44] : List Int).length :=
  ⟨by decide, by decide,
    (C10_sizes_extension).1 ["A", "B"] [40, 42, 44] (by decide) (by decide)⟩

theorem dictGet?_dictSet_self (d : Dict) (k : String) (v : Int) :
    dictGet? (dictSet d k v) k = some v := by
  induction d with
  | nil => simp [dictSet, dictGet?]
  | cons p rest ih =>
    obtain ⟨k1, v1⟩ := p
    by_cases hk : k1 = k
    · rw [dictSet, if_pos hk, dictGet?, if_pos hk]
    · rw [dictSet, if_neg hk, dictGet?, if_neg hk]
      exact ih

theorem dictGet?_dictSet_other (d : Dict) (k : String) (v : Int) (t : String)
    (h : k ≠ t) : dictGet? (dictSet d k v) t = dictGet? d t := by
  induction d with
  | nil => simp [dictSet, dictGet?, h]
  | cons p rest ih =>
    obtain ⟨k1, v1⟩ := p
    by_cases hk : k1 = k
    · have hnt : ¬k1 = t := by rw [hk]; exact h
      rw [dictSet, if_pos hk, dictGet?, dictGet?, if_neg hnt, if_neg hnt]
    · rw [dictSet, if_neg hk, dictGet?, dictGet?]
      by_cases ht : k1 = t
      · rw [if_pos ht, if_pos ht]
      · rw [if_neg ht, if_neg ht]
        exact ih

/-- The per-size row step leaves every field the evaluator reads as
static untouched. -/
theorem processRow_preserves (t : String) (c2 : Int) (r : Row) :
    (processRow t c2 r).1.number = r.number
    ∧ (processRow t c2 r).1.is_repeat_ref = r.is_repeat_ref
    ∧ (processRow t c2 r).1.cast_on_extra = r.cast_on_extra
    ∧ (processRow t c2 r).1.operations = r.operations
    ∧ (processRow t c2 r).1.repeat_blocks = r.repeat_blocks
    ∧ (processRow t c2 r).1.expected_sts = r.expected_sts
    ∧ (processRow t c2 r).1.line_number = r.line_number := by
  rw [processRow]
  rcases hn : r.number with _ | n
  · simp
  · rcases he : expectedLookup r t with _ | v
    · cases n <;> simp
    · cases n <;> simp

/-- The ending count calculate_row_stitches returns, outside the Row 0
override of validate_pattern. -/
theorem calc_fst (row : Row) (c : Int) (size : String)
    (h : ¬(row.number = some 0 ∧ (expectedLookup row size).isSome)) :
    (calculate_row_stitches row c size).1 =
      (if row.is_repeat_ref then c
       else
         match row.cast_on_extra with
         | some e => c + e
         | none =>
           if hasWorkEven row then c
           else max (c + rowNetChange row c) 0) := by
  rw [calculate_row_stitches]
  rcases hr : row.is_repeat_ref with _ | _
  · simp only [Bool.false_eq_true, if_false]
    rcases hc : row.cast_on_extra with _ | extra
    · simp only []
      by_cases hw : hasWorkEven row
      · have hw2 : (row.operations.any (fun op => op.op_type = OperationType.WORK_EVEN)) = true := hw
        simp [hw2, hw]
      · have hw2 : (row.operations.any (fun op => op.op_type = OperationType.WORK_EVEN)) = false := by
          simpa [hasWorkEven] using hw
        simp only [hw2, Bool.false_eq_true, if_false, hw]
        by_cases hn : row.number = some 0
        · have he : expectedLookup row size = none := by
            rcases hel : expectedLookup row size with _ | v
            · rfl
            · exact absurd ⟨hn, by rw [hel]; rfl⟩ h
          simp [hn, he, rowNetChange, rowBlocks, rowFlatNet, rowAccounted]
        · simp only [hn, if_false]
          rcases hel : expectedLookup row size with _ | e
          · simp [hel, rowNetChange, rowBlocks, rowFlatNet, rowAccounted]
          · simp only [hel]
            split
            · simp [rowNetChange, rowBlocks, rowFlatNet, rowAccounted]
            · split
              · simp [rowNetChange, rowBlocks, rowFlatNet, rowAccounted]
              · split <;> simp [rowNetChange, rowBlocks, rowFlatNet, rowAccounted]
    · simp
  · simp

/-- The ending count the per-size row step reports is the specification
step. -/
theorem processRow_snd (size : String) (c : Int) (r : Row) :
    (processRow size c r).2.1 = specStep size c r := by
  rw [processRow, specStep]
  rcases hn : r.number with _ | n
  · have h : ¬(r.number = some 0 ∧ (expectedLookup r size).isSome) := by
      rw [hn]; simp
    simp only [hn]
    rcases he : expectedLookup r size with _ | v <;>
      simpa using calc_fst r c size h
  · rcases he : expectedLookup r size with _ | v
    · have h : ¬(r.number = some 0 ∧ (expectedLookup r size).isSome) := by
        rw [he]; simp
      cases n <;> simpa using calc_fst r c size h
    · cases n with
      | zero => simp
      | succ m =>
        have h : ¬(r.number = some 0 ∧ (expectedLookup r size).isSome) := by
          rw [hn]; simp
        simpa using calc_fst r c size h

/-- Both arms of the row step store the reported current count under the
processed size. -/
theorem processRow_calcGet_eq_snd (size : String) (c : Int) (r : Row) :
    calcGet size (processRow size c r).1 = some ((processRow size c r).2.1) := by
  rw [processRow]
  rcases hn : r.number with _ | n
  · simp [calcGet, dictGet?_dictSet_self]
  · rcases he : expectedLookup r size with _ | v
    · cases n <;> simp [calcGet, dictGet?_dictSet_self]
    · cases n <;> simp [calcGet, dictGet?_dictSet_self]

/-- The row step for one size leaves the calculated entry of any other
size unchanged. -/
theorem processRow_calcGet_other (size : String) (c : Int) (r : Row)
    (t : String) (h : size ≠ t) :
    calcGet t (processRow size c r).1 = calcGet t r := by
  rw [processRow]
  rcases hn : r.number with _ | n
  · simp [calcGet, dictGet?_dictSet_other _ _ _ _ h]
  · rcases he : expectedLookup r size with _ | v
    · cases n <;> simp [calcGet, dictGet?_dictSet_other _ _ _ _ h]
    · cases n <;>
        simp [calcGet, dictGet?_dictSet_other _ _ _ _ h]

/-- The specification step only reads static fields, so it is invariant
under the row step of any size. -/
theorem specStep_processRow (size : String) (c : Int) (t : String) (c2 : Int)
    (r : Row) : specStep size c ((processRow t c2 r).1) = specStep size c r := by
  have h := processRow_preserves t c2 r
  simp only [specStep, expectedLookup, hasWorkEven, rowNetChange, rowBlocks,
    rowFlatNet, rowAccounted, h.1, h.2.1, h.2.2.1, h.2.2.2.1, h.2.2.2.2.1,
    h.2.2.2.2.2.1]

theorem specCalcList_processRows (size : String) (t : String) :
    ∀ (rows : List Row) (c c2 : Int),
    specCalcList size c ((processRows t c2 rows).1) = specCalcList size c rows := by
  intro rows
  induction rows with
  | nil => intro c c2; rfl
  | cons r rest ih =>
    intro c c2
    rw [processRows]
    simp only [specCalcList, specStep_processRow, ih]

theorem foldl_specStep_processRows (size : String) (t : String) :
    ∀ (rows : List Row) (c c2 : Int),
    List.foldl (specStep size) c ((processRows t c2 rows).1)
      = List.foldl (specStep size) c rows := by
  intro rows
  induction rows with
  | nil => intro c c2; rfl
  | cons r rest ih =>
    intro c c2
    rw [processRows]
    simp only [List.foldl_cons, specStep_processRow, ih]

theorem processRows_calcGet_self (size : String) :
    ∀ (rows : List Row) (c : Int),
    ((processRows size c rows).1).map (calcGet size)
      = (specCalcList size c rows).map some := by
  intro rows
  induction rows with
  | nil => intro c; rfl
  | cons r rest ih =>
    intro c
    rw [processRows]
    simp only [List.map_cons, specCalcList]
    rw [processRow_calcGet_eq_snd, processRow_snd, ih]

theorem processRows_calcGet_other (size : String) (t : String) (h : size ≠ t) :
    ∀ (rows : List Row) (c : Int),
    ((processRows size c rows).1).map (calcGet t) = rows.map (calcGet t) := by
  intro rows
  induction rows with
  | nil => intro c; rfl
  | cons r rest ih =>
    intro c
    rw [processRows]
    simp only [List.map_cons]
    rw [processRow_calcGet_other _ _ _ _ h, ih]

theorem processRows_snd (size : String) :
    ∀ (rows : List Row) (c : Int),
    (processRows size c rows).2.1 = List.foldl (specStep size) c rows := by
  intro rows
  induction rows with
  | nil => intro c; rfl
  | cons r rest ih =>
    intro c
    rw [processRows]
    simp only [List.foldl_cons]
    rw [ih, processRow_snd]

theorem specCalcList_append (size : String) :
    ∀ (xs ys : List Row) (c : Int),
    specCalcList size c (xs ++ ys)
      = specCalcList size c xs
        ++ specCalcList size (List.foldl (specStep size) c xs) ys := by
  intro xs
  induction xs with
  | nil => intro ys c; rfl
  | cons x xs ih =>
    intro ys c
    simp only [List.cons_append, specCalcList, List.foldl_cons, List.append_eq, ih]

theorem processSections_calcGet_self (size : String) :
    ∀ (secs : List Section) (c : Int),
    (((processSections size c secs).1).flatMap (fun s => s.rows)).map (calcGet size)
      = (specCalcList size c (secs.flatMap (fun s => s.rows))).map some := by
  intro secs
  induction secs with
  | nil => intro c; rfl
  | cons sec rest ih =>
    intro c
    rw [processSections]
    simp only [List.flatMap_cons, List.map_append]
    rw [specCalcList_append, List.map_append]
    rw [processRows_calcGet_self, processRows_snd, ih]

theorem processSections_calcGet_other (size : String) (t : String) (h : size ≠ t) :
    ∀ (secs : List Section) (c : Int),
    (((processSections size c secs).1).flatMap (fun s => s.rows)).map (calcGet t)
      = (secs.flatMap (fun s => s.rows)).map (calcGet t) := by
  intro secs
  induction secs with
  | nil => intro c; rfl
  | cons sec rest ih =>
    intro c
    rw [processSections]
    simp only [List.flatMap_cons, List.map_append]
    rw [processRows_calcGet_other _ _ h, ih]

theorem specCalcList_processSections (size : String) (t : String) :
    ∀ (secs : List Section) (c c2 : Int),
    specCalcList size c (((processSections t c2 secs).1).flatMap (fun s => s.rows))
      = specCalcList size c (secs.flatMap (fun s => s.rows)) := by
  intro secs
  induction secs with
  | nil => intro c c2; rfl
  | cons sec rest ih =>
    intro c c2
    rw [processSections]
    simp only [List.flatMap_cons]
    rw [specCalcList_append, specCalcList_append]
    rw [specCalcList_processRows, foldl_specStep_processRows, ih]

theorem passSize_flatRows (p : Pattern) (s : String) :
    flatRows (passSize p s)
      = ((processSections s (dictGetD p.cast_on_counts s 0) p.sections).1).flatMap
          (fun x => x.rows) := rfl

theorem passSize_cast (p : Pattern) (s : String) :
    (passSize p s).cast_on_counts = p.cast_on_counts := rfl

theorem passSize_sizes (p : Pattern) (s : String) :
    (passSize p s).sizes = p.sizes := rfl

theorem pass_establishes (p : Pattern) (s : String) :
    (flatRows (passSize p s)).map (calcGet s)
      = (specCalcList s (dictGetD p.cast_on_counts s 0)
          (flatRows (passSize p s))).map some := by
  rw [passSize_flatRows, processSections_calcGet_self,
    specCalcList_processSections]

theorem pass_preserves (p : Pattern) (s t : String) (c0 : Int)
    (hc : dictGetD p.cast_on_counts s 0 = c0)
    (h : (flatRows p).map (calcGet s) = (specCalcList s c0 (flatRows p)).map some) :
    (flatRows (passSize p t)).map (calcGet s)
      = (specCalcList s c0 (flatRows (passSize p t))).map some := by
  by_cases hts : t = s
  · subst hts
    rw [← hc]
    exact pass_establishes p t
  · have hne : t ≠ s := hts
    rw [passSize_flatRows, processSections_calcGet_other t s (fun he => hne he)]
    rw [show ((processSections t (dictGetD p.cast_on_counts t 0) p.sections).1).flatMap
        (fun x => x.rows) = flatRows (passSize p t) from rfl]
    rw [passSize_flatRows, specCalcList_processSections]
    exact h

theorem fold_preserves : ∀ (L : List String) (p : Pattern) (s : String) (c0 : Int),
    dictGetD p.cast_on_counts s 0 = c0 →
    (flatRows p).map (calcGet s) = (specCalcList s c0 (flatRows p)).map some →
    (flatRows (L.foldl passSize p)).map (calcGet s)
      = (specCalcList s c0 (flatRows (L.foldl passSize p))).map some := by
  intro L
  induction L with
  | nil => intro p s c0 _ h; exact h
  | cons t L2 ih =>
    intro p s c0 hc h
    exact ih (passSize p t) s c0 (by rw [passSize_cast]; exact hc)
      (pass_preserves p s t c0 hc h)

theorem fold_establishes : ∀ (L : List String) (p : Pattern) (s : String) (c0 : Int),
    s ∈ L →
    dictGetD p.cast_on_counts s 0 = c0 →
    (flatRows (L.foldl passSize p)).map (calcGet s)
      = (specCalcList s c0 (flatRows (L.foldl passSize p))).map some := by
  intro L
  induction L with
  | nil => intro p s c0 hmem; exact absurd hmem (List.not_mem_nil s)
  | cons t L2 ih =>
    intro p s c0 hmem hc
    by_cases hts : s = t
    · subst hts
      exact fold_preserves L2 (passSize p s) s c0
        (by rw [passSize_cast]; exact hc)
        (by rw [← hc]; exact pass_establishes p s)
    · have hmem2 : s ∈ L2 := by
        rcases List.mem_cons.mp hmem with h1 | h2
        · exact absurd h1 hts
        · exact h2
      exact ih (passSize p t) s c0 hmem2 (by rw [passSize_cast]; exact hc)

theorem foldl_pass_cast : ∀ (L : List String) (p : Pattern),
    (L.foldl passSize p).cast_on_counts = p.cast_on_counts := by
  intro L
  induction L with
  | nil => intro p; rfl
  | cons t L2 ih => intro p; rw [List.foldl_cons, ih, passSize_cast]

theorem foldl_pass_sizes : ∀ (L : List String) (p : Pattern),
    (L.foldl passSize p).sizes = p.sizes := by
  intro L
  induction L with
  | nil => intro p; rfl
  | cons t L2 ih => intro p; rw [List.foldl_cons, ih, passSize_sizes]

/-- The two cross-cutting checks only append issue records: the
sections, cast-on counts and sizes are untouched. -/
theorem checks_preserve (p : Pattern) :
    flatRows (_check_document_stitch_assertions p) = flatRows p
    ∧ (_check_document_stitch_assertions p).cast_on_counts = p.cast_on_counts
    ∧ (_check_document_stitch_assertions p).sizes = p.sizes
    ∧ flatRows (_check_cross_row_consistency p) = flatRows p
    ∧ (_check_cross_row_consistency p).cast_on_counts = p.cast_on_counts
    ∧ (_check_cross_row_consistency p).sizes = p.sizes := by
  unfold _check_document_stitch_assertions _check_cross_row_consistency
  split <;> simp [flatRows]

/-- C1 (amended): in the validated pattern, for every declared size, the
sequence of calculated counts along the rows in source order is the
running count that starts at the cast-on count for that size (default 0)
and is updated row by row: reset to the stated count at Row 0 when
present, passed through for repeat-reference and work-even rows, shifted
by cast_on_extra for extra cast-on rows, and otherwise advanced by the
net change of the row and clamped at zero — rather than the plain
cast-on-plus-cumulative-net sum of the original claim. -/
theorem C1_running_count (p : Pattern) (size : String)
    (h : size ∈ (validate_pattern p).sizes) :
    (flatRows (validate_pattern p)).map (calcGet size)
      = (specCalcList size
          (dictGetD (validate_pattern p).cast_on_counts size 0)
          (flatRows (validate_pattern p))).map some := by
  have hv : validate_pattern p
      = _check_document_stitch_assertions (_check_cross_row_consistency
          ((validatePatternPre p).sizes.foldl passSize (validatePatternPre p))) := rfl
  rw [hv] at h ⊢
  have hc1 := checks_preserve
    (_check_cross_row_consistency
      ((validatePatternPre p).sizes.foldl passSize (validatePatternPre p)))
  have hc2 := checks_preserve
    ((validatePatternPre p).sizes.foldl passSize (validatePatternPre p))
  rw [hc1.2.2.1, hc2.2.2.2.2.2, foldl_pass_sizes] at h
  rw [hc1.1, hc2.2.2.2.1]
  rw [hc1.2.1, hc2.2.2.2.2.1, foldl_pass_cast]
  exact fold_establishes (validatePatternPre p).sizes (validatePatternPre p)
    size (dictGetD (validatePatternPre p).cast_on_counts size 0) h rfl

/-- Witness for C1 at a concrete two-row pattern (a k2tog row followed by
a work-even row with a stated count). -/
theorem C1_witness :
    "S1" ∈ (validate_pattern witPatternC1).sizes
    ∧ (flatRows (validate_pattern witPatternC1)).map (calcGet "S1")
        = (specCalcList "S1"
            (dictGetD (validate_pattern witPatternC1).cast_on_counts "S1" 0)
            (flatRows (validate_pattern witPatternC1))).map some :=
  ⟨by decide, C1_running_count witPatternC1 ("S1") (by decide)⟩

/-! ### The sorted-scan equivalence behind the document assertion check -/

def lineSorted : List LEntry → Prop := List.Chain' (fun a b => a.ln ≤ b.ln)

theorem lineSorted_cons_lb : ∀ (fs : List LEntry) (f : LEntry),
    lineSorted (f :: fs) → ∀ x ∈ fs, f.ln ≤ x.ln := by
  intro fs
  induction fs with
  | nil => intro f _ x hx; simp at hx
  | cons g gs ih =>
    intro f hs x hx
    have h1 : f.ln ≤ g.ln := (List.chain'_cons.mp hs).1
    rcases List.mem_cons.mp hx with h2 | h2
    · rw [h2]; exact h1
    · exact le_trans h1 (ih g (List.chain'_cons.mp hs).2 x h2)

theorem lineSorted_tail {f : LEntry} {fs : List LEntry}
    (h : lineSorted (f :: fs)) : lineSorted fs := by
  cases fs with
  | nil => exact List.chain'_nil
  | cons g gs => exact (List.chain'_cons.mp h).2

theorem insertByLine_sorted (e : LEntry) : ∀ (l : List LEntry),
    lineSorted l → lineSorted (insertByLine e l) := by
  intro l
  induction l with
  | nil => intro _; exact List.chain'_singleton e
  | cons f fs ih =>
    intro hs
    rw [insertByLine]
    by_cases he : e.ln ≤ f.ln
    · rw [if_pos he]
      exact List.chain'_cons.mpr ⟨he, hs⟩
    · rw [if_neg he]
      have hfe : f.ln ≤ e.ln := le_of_not_le he
      have hrest := ih (lineSorted_tail hs)
      cases hfs : insertByLine e fs with
      | nil => exact List.chain'_singleton f
      | cons g gs =>
        refine List.chain'_cons.mpr ⟨?_, hfs ▸ hrest⟩
        cases fs with
        | nil =>
          simp [insertByLine] at hfs
          rw [← hfs.1]
          exact hfe
        | cons f2 fs2 =>
          rw [insertByLine] at hfs
          by_cases he2 : e.ln ≤ f2.ln
          · rw [if_pos he2] at hfs
            rw [← (List.cons.injEq _ _ _ _).mp hfs |>.1]
            exact hfe
          · rw [if_neg he2] at hfs
            rw [← (List.cons.injEq _ _ _ _).mp hfs |>.1]
            exact (List.chain'_cons.mp hs).1

theorem sortByLine_sorted : ∀ (l : List LEntry), lineSorted (sortByLine l) := by
  intro l
  induction l with
  | nil => exact List.chain'_nil
  | cons e es ih => exact insertByLine_sorted e _ ih

/-- The accumulator of the break-scan only matters when no entry at or
before the target line is seen. -/
theorem scanApplied_acc (lq : Nat) : ∀ (l : List LEntry) (acc : Option LEntry),
    scanApplied lq acc l
      = (match scanApplied lq none l with
         | some r => some r
         | none => acc) := by
  intro l
  induction l with
  | nil => intro acc; rfl
  | cons e t ih =>
    intro acc
    rw [scanApplied, scanApplied]
    by_cases he : e.ln ≤ lq
    · rw [if_pos he, if_pos he, ih (some e)]
      cases scanApplied lq none t <;> rfl
    · rw [if_neg he, if_neg he]

theorem scanApplied_mem_or_acc (lq : Nat) : ∀ (l : List LEntry) (acc : Option LEntry)
    (r : LEntry), scanApplied lq acc l = some r → r ∈ l ∨ acc = some r := by
  intro l
  induction l with
  | nil => intro acc r h; exact Or.inr h
  | cons e t ih =>
    intro acc r h
    rw [scanApplied] at h
    by_cases he : e.ln ≤ lq
    · rw [if_pos he] at h
      rcases ih (some e) r h with h1 | h2
      · exact Or.inl (List.mem_cons.mpr (Or.inr h1))
      · exact Or.inl (List.mem_cons.mpr (Or.inl (Option.some.inj h2).symm))
    · rw [if_neg he] at h
      exact Or.inr h

/-- Inserting into a sorted list interacts with the break-scan exactly as
a latest-by-line merge. -/
theorem scanApplied_insert (lq : Nat) (e : LEntry) : ∀ (l : List LEntry),
    lineSorted l →
    scanApplied lq none (insertByLine e l)
      = (if e.ln ≤ lq then
          (match scanApplied lq none l with
           | none => some e
           | some r => if r.ln < e.ln then some e else some r)
         else scanApplied lq none l) := by
  intro l
  induction l with
  | nil =>
    intro _
    by_cases he : e.ln ≤ lq <;>
      simp [insertByLine, scanApplied, he]
  | cons f fs ih =>
    intro hs
    rw [insertByLine]
    by_cases hef : e.ln ≤ f.ln
    · rw [if_pos hef]
      by_cases he : e.ln ≤ lq
      · rw [if_pos he, scanApplied, if_pos he, scanApplied_acc]
        cases hres : scanApplied lq none (f :: fs) with
        | none => rfl
        | some r =>
          have hmem : r ∈ f :: fs := by
            rcases scanApplied_mem_or_acc lq (f :: fs) none r hres with h1 | h2
            · exact h1
            · exact absurd h2 (by simp)
          have hlb : f.ln ≤ r.ln := by
            rcases List.mem_cons.mp hmem with h1 | h1
            · rw [h1]
            · exact lineSorted_cons_lb fs f hs r h1
          have : ¬r.ln < e.ln := not_lt.mpr (le_trans hef hlb)
          simp [this]
      · rw [if_neg he, scanApplied, if_neg he]
        have hf : ¬f.ln ≤ lq := fun hc => he (le_trans hef hc)
        rw [scanApplied, if_neg hf]
    · rw [if_neg hef]
      have hfe : f.ln ≤ e.ln := le_of_not_le hef
      rw [scanApplied, scanApplied]
      by_cases hf : f.ln ≤ lq
      · rw [if_pos hf, if_pos hf]
        rw [scanApplied_acc lq (insertByLine e fs) (some f),
          scanApplied_acc lq fs (some f)]
        rw [ih (lineSorted_tail hs)]
        by_cases he : e.ln ≤ lq
        · rw [if_pos he, if_pos he]
          cases hres : scanApplied lq none fs with
          | none =>
            have : f.ln < e.ln := lt_of_not_le hef
            simp [this]
          | some r =>
            by_cases hr : r.ln < e.ln
            · simp [hr]
            · simp [hr]
        · rw [if_neg he, if_neg he]
      · rw [if_neg hf, if_neg hf]
        have he : ¬e.ln ≤ lq := fun hc => hf (le_trans hfe hc)
        rw [if_neg he]

theorem scanApplied_sortByLine (lq : Nat) : ∀ (l : List LEntry),
    scanApplied lq none (sortByLine l) = latestAtOrBefore lq l := by
  intro l
  induction l with
  | nil => rfl
  | cons e es ih =>
    rw [sortByLine, latestAtOrBefore]
    rw [scanApplied_insert lq e (sortByLine es) (sortByLine_sorted es), ih]
    by_cases he : e.ln ≤ lq
    · rw [if_pos he]
      cases latestAtOrBefore lq es with
      | none => simp [he]
      | some r =>
        by_cases hr : r.ln < e.ln
        · simp [hr, he]
        · simp [hr, he]
    · rw [if_neg he]
      cases latestAtOrBefore lq es with
      | none => simp [he]
      | some r => simp [he]

theorem specAssertionErrors_sizes_nil (E : List LEntry) (a : ARec) :
    specAssertionErrors [] E a = [] := by
  rw [specAssertionErrors]
  cases latestAtOrBefore a.line E with
  | none => rfl
  | some applied =>
    by_cases h1 : applied.row.line_number = some a.line
    · simp [h1]
    · simp only [h1, if_false]
      by_cases h2 : a.counts.length = ([] : List String).length
      · simp [h2, assertSizeErrors]
      · by_cases h3 : a.counts.length = 1 <;> simp [h2, h3, assertSizeErrors]

/-- Under the hypothesis that every row with a line number has a nonempty
calculated dict, the eligibility filter of the code collects exactly the
document-order entries the claim describes. -/
theorem collect_eq_doc (p : Pattern)
    (h : ∀ r ∈ flatRows p, r.line_number ≠ none →
        r.calculated_sts ≠ none ∧ (r.calculated_sts).getD [] ≠ []) :
    collectRowLineSts p = docLineEntries p := by
  unfold collectRowLineSts docLineEntries flatRows
  apply List.filterMap_congr
  intro r hr
  rcases hl : r.line_number with _ | ln
  · simp [hl]
  · have hrf : r ∈ flatRows p := by
      unfold flatRows
      exact hr
    have hc := h r hrf (by rw [hl]; simp)
    rcases hcs : r.calculated_sts with _ | c
    · exact absurd hcs hc.1
    · have hce : ¬c.isEmpty = true := by
        have h2 := hc.2
        rw [hcs] at h2
        simpa [List.isEmpty_iff] using h2
      simp [hl, hcs, hce]

theorem errorsFor_eq_spec (sizes : List String) (E : List LEntry) (a : ARec) :
    errorsForAssertion sizes (sortByLine E) a = specAssertionErrors sizes E a := by
  rw [errorsForAssertion, specAssertionErrors, scanApplied_sortByLine]
  cases latestAtOrBefore a.line E with
  | none => rfl
  | some applied =>
    by_cases h1 : applied.row.line_number = some a.line
    · simp [h1]
    · simp only [h1, if_false]
      by_cases h2 : a.counts.length = sizes.length
      · simp [h2]
      · by_cases h3 : a.counts.length = 1
        · have h4 : ¬(1 = sizes.length) := by rw [← h3]; exact h2
          simp [h2, h3, h4]
        · simp [h2, h3]

/-- C6: the document-wide assertion check applies each extracted
assertion to the latest row (by source line, document order breaking
ties) whose line is at or before the assertion line, skips it when that
row sits on the assertion line itself, maps the count list to sizes by
positional zip, singleton broadcast, or not at all, and emits one
stitch-count error per mapped size whose calculated count differs — one
error list per assertion, concatenated in extraction order onto the
pattern errors. -/
theorem C6_document_assertions (p : Pattern)
    (h : ∀ r ∈ flatRows p, r.line_number ≠ none →
        r.calculated_sts ≠ none ∧ (r.calculated_sts).getD [] ≠ []) :
    (_check_document_stitch_assertions p).errors
      = p.errors ++ (extract_all_stitch_assertions p.raw_text).flatMap
          (specAssertionErrors p.sizes (docLineEntries p)) := by
  rw [_check_document_stitch_assertions]
  by_cases hs : p.sizes.isEmpty
  · rw [if_pos hs]
    have hnil : p.sizes = [] := List.isEmpty_iff.mp hs
    rw [hnil]
    simp [specAssertionErrors_sizes_nil]
  · rw [if_neg hs]
    have hE : collectRowLineSts p = docLineEntries p := collect_eq_doc p h
    have hfn : errorsForAssertion p.sizes (sortByLine (collectRowLineSts p))
        = specAssertionErrors p.sizes (docLineEntries p) := by
      funext a
      rw [errorsFor_eq_spec, hE]
    simp only []
    rw [hfn]

/-- Witness for C6 at a concrete pattern with a document assertion two
lines after the last row. -/
theorem C6_witness :
    (∀ r ∈ flatRows witPatternC6, r.line_number ≠ none →
        r.calculated_sts ≠ none ∧ (r.calculated_sts).getD [] ≠ [])
    ∧ (_check_document_stitch_assertions witPatternC6).errors
        = witPatternC6.errors
          ++ (extract_all_stitch_assertions witPatternC6.raw_text).flatMap
              (specAssertionErrors witPatternC6.sizes (docLineEntries witPatternC6)) :=
  ⟨by decide, C6_document_assertions witPatternC6 (by decide)⟩

end StitchCheck
